import Mathlib

/-!
Verification development for the temporal-flow-server repository.

The core of the repository is `parseTemporalHistory` in
`src/temporal.service.ts`: a single left-to-right pass over an event list
that builds a chronological list of workflow/activity spans, mutating
already-emitted spans in place through a workflow map (object references)
and a scope stack.

Embedding notes:
- TS object aliasing (the workflow map stores references to span objects
  that also live in the output array) is modelled by storing, in
  `workflowMap`, the *index* of the span inside `chronologicalList`;
  mutation through the map becomes a `List.set` at that index.
- The scope stack `workflowStack` is a TS array whose *end* is the top
  (push/pop at the end); we model it as a Lean list whose *head* is the
  top (push = cons, pop = tail), which is the same stack discipline.
- Statuses are the literal strings the source uses.
- Timestamps and event ids are `Nat`.
- The backward for-loop with `break` (resolution of activity events) is
  modelled by `updateLast`, which rewrites the last element satisfying a
  predicate and leaves the list unchanged when none does.
-/

namespace Temporal

/-- Event kinds handled by the parser's switch; `OTHER` stands for every
unrecognized kind (the `default` branch of the switch). -/
inductive EventType
  | WORKFLOW_EXECUTION_STARTED
  | WORKFLOW_EXECUTION_COMPLETED
  | WORKFLOW_EXECUTION_FAILED
  | WORKFLOW_EXECUTION_TIMED_OUT
  | WORKFLOW_EXECUTION_CANCELED
  | WORKFLOW_EXECUTION_TERMINATED
  | ACTIVITY_TASK_SCHEDULED
  | ACTIVITY_TASK_STARTED
  | ACTIVITY_TASK_COMPLETED
  | ACTIVITY_TASK_FAILED
  | ACTIVITY_TASK_TIMED_OUT
  | ACTIVITY_TASK_CANCELED
  | CHILD_WORKFLOW_EXECUTION_STARTED
  | CHILD_WORKFLOW_EXECUTION_COMPLETED
  | START_CHILD_WORKFLOW_EXECUTION_INITIATED
  | OTHER
deriving DecidableEq

/-- `{name: string}` payloads such as `workflowType.name` / `activityType.name`. -/
structure TypeRef where
  name : String
deriving DecidableEq

/-- `input` payload carrier (`attrs.input?.payloads`). -/
structure PayloadRef where
  payloads : List String
deriving DecidableEq

/-- `workflowExecution` / `parentWorkflowExecution` references. -/
structure WorkflowExecutionRef where
  workflowId : String
  runId : String
deriving DecidableEq

structure WorkflowExecutionStartedEventAttributes where
  workflowId : String
  firstExecutionRunId : String
  workflowType : TypeRef
  input : Option PayloadRef
deriving DecidableEq

structure ActivityTaskScheduledEventAttributes where
  activityId : String
  activityType : TypeRef
  workflowTaskCompletedEventId : Nat
deriving DecidableEq

/-- The parser only tests this attribute object for presence. -/
structure ActivityTaskStartedEventAttributes where
  scheduledEventId : Nat
deriving DecidableEq

/-- `result?.payloads` of an ActivityTaskCompleted event. -/
structure ActivityResultRef where
  payloads : Option (List String)
deriving DecidableEq

structure ActivityTaskCompletedEventAttributes where
  result : Option ActivityResultRef
deriving DecidableEq

structure ChildWorkflowExecutionStartedEventAttributes where
  workflowExecution : Option WorkflowExecutionRef
  parentWorkflowExecution : Option WorkflowExecutionRef
  workflowType : Option TypeRef
deriving DecidableEq

structure ChildWorkflowExecutionCompletedEventAttributes where
  workflowExecution : Option WorkflowExecutionRef
deriving DecidableEq

structure StartChildWorkflowExecutionInitiatedEventAttributes where
  workflowId : String
  workflowType : Option TypeRef
  workflowTaskCompletedEventId : Nat
deriving DecidableEq

/-- One raw history event.  Each kind-specific attribute object is optional,
matching the `if (attrs)` presence checks in the source. -/
structure Event where
  eventId : Nat
  eventTime : Nat
  eventType : EventType
  workflowExecutionStartedEventAttributes : Option WorkflowExecutionStartedEventAttributes
  activityTaskScheduledEventAttributes : Option ActivityTaskScheduledEventAttributes
  activityTaskStartedEventAttributes : Option ActivityTaskStartedEventAttributes
  activityTaskCompletedEventAttributes : Option ActivityTaskCompletedEventAttributes
  childWorkflowExecutionStartedEventAttributes : Option ChildWorkflowExecutionStartedEventAttributes
  childWorkflowExecutionCompletedEventAttributes : Option ChildWorkflowExecutionCompletedEventAttributes
  startChildWorkflowExecutionInitiatedEventAttributes : Option StartChildWorkflowExecutionInitiatedEventAttributes
deriving DecidableEq

/-- A `Workflow` timeline item.  `itemType` is the TS discriminant `type`,
either `"workflow"` or `"childWorkflow"`. -/
structure Workflow where
  itemType : String
  workflowId : String
  runId : Option String
  workflowType : Option String
  startTime : Option Nat
  endTime : Option Nat
  status : String
  relatedEventIds : List Nat
  payload : Option (List String)
  parentWorkflowId : Option String
  parentRunId : Option String
  workflowTaskCompletedEventId : Option Nat
deriving DecidableEq

/-- An `Activity` timeline item (TS discriminant `type: 'activity'`). -/
structure Activity where
  activityId : String
  activityType : String
  workflowId : String
  scheduleTime : Option Nat
  startTime : Option Nat
  endTime : Option Nat
  status : String
  relatedEventIds : List Nat
  payload : Option (List String)
  workflowTaskCompletedEventId : Option Nat
deriving DecidableEq

inductive ChronologicalItem
  | workflow (w : Workflow)
  | activity (a : Activity)
deriving DecidableEq

/-- Parser state carried through the single pass.  `workflowMap` and
`activityMap` store indices into `chronologicalList` in place of the TS
object references; `workflowStack` has its top at the head. -/
structure ParseState where
  chronologicalList : List ChronologicalItem
  workflowMap : List (String × Nat)
  activityMap : List (String × Nat)
  workflowStack : List String
deriving DecidableEq

def initState : ParseState := ⟨[], [], [], []⟩

/-- JS object property assignment `m[k] = v`: overwrite if present, add
otherwise. -/
def insertAssoc (k : String) (v : α) : List (String × α) → List (String × α)
  | [] => [(k, v)]
  | p :: rest => if p.1 = k then (k, v) :: rest else p :: insertAssoc k v rest

/-- JS object property read `m[k]`. -/
def lookupAssoc (k : String) : List (String × α) → Option α
  | [] => none
  | p :: rest => if p.1 = k then some p.2 else lookupAssoc k rest

/-- The backward for-loop with `break` of the source: rewrite the *last*
element satisfying `p` (if any) with `f`, leave the rest untouched. -/
def updateLast (p : α → Bool) (f : α → α) : List α → List α
  | [] => []
  | x :: xs =>
    if xs.any p then x :: updateLast p f xs
    else if p x then f x :: xs
    else x :: xs

/-- Mutation of the workflow span the map points at (`wf.field = ...` in TS). -/
def modifyWorkflowAt (l : List ChronologicalItem) (i : Nat) (f : Workflow → Workflow) : List ChronologicalItem :=
  match l.get? i with
  | some (ChronologicalItem.workflow w) => l.set i (ChronologicalItem.workflow (f w))
  | _ => l

/-- Inner switch of the workflow-terminal case. -/
def workflowTerminalStatus : EventType → String
  | EventType.WORKFLOW_EXECUTION_COMPLETED => "COMPLETED"
  | EventType.WORKFLOW_EXECUTION_FAILED => "FAILED"
  | EventType.WORKFLOW_EXECUTION_TIMED_OUT => "TIMED_OUT"
  | EventType.WORKFLOW_EXECUTION_CANCELED => "CANCELED"
  | EventType.WORKFLOW_EXECUTION_TERMINATED => "TERMINATED"
  | _ => "RUNNING"

/-- Inner switch computing `newStatus` in the activity-terminal case. -/
def activityTerminalStatus : EventType → String
  | EventType.ACTIVITY_TASK_COMPLETED => "COMPLETED"
  | EventType.ACTIVITY_TASK_FAILED => "FAILED"
  | EventType.ACTIVITY_TASK_TIMED_OUT => "TIMED_OUT"
  | EventType.ACTIVITY_TASK_CANCELED => "CANCELED"
  | _ => ""

def isWorkflowTerminalEvent : EventType → Bool
  | EventType.WORKFLOW_EXECUTION_COMPLETED => true
  | EventType.WORKFLOW_EXECUTION_FAILED => true
  | EventType.WORKFLOW_EXECUTION_TIMED_OUT => true
  | EventType.WORKFLOW_EXECUTION_CANCELED => true
  | EventType.WORKFLOW_EXECUTION_TERMINATED => true
  | _ => false

def isActivityTerminalEvent : EventType → Bool
  | EventType.ACTIVITY_TASK_COMPLETED => true
  | EventType.ACTIVITY_TASK_FAILED => true
  | EventType.ACTIVITY_TASK_TIMED_OUT => true
  | EventType.ACTIVITY_TASK_CANCELED => true
  | _ => false

/-- Match condition of the ActivityTaskStarted backward scan
(`item.type === 'activity' && item.workflowId === topWorkflowId &&
item.status === 'SCHEDULED'`).  A `none` top (empty stack) matches
nothing, like the `undefined` comparison in JS. -/
def activityStartedPred (top : Option String) : ChronologicalItem → Bool
  | ChronologicalItem.activity a => (some a.workflowId == top) && (a.status == "SCHEDULED")
  | _ => false

/-- Match condition of the activity-terminal backward scan
(status `'STARTED' || 'SCHEDULED'`). -/
def activityTerminalPred (top : Option String) : ChronologicalItem → Bool
  | ChronologicalItem.activity a =>
    (some a.workflowId == top) && (a.status == "STARTED" || a.status == "SCHEDULED")
  | _ => false

/-- In-place update applied to the matched activity by ActivityTaskStarted. -/
def activityStartedUpd (event : Event) : ChronologicalItem → ChronologicalItem
  | ChronologicalItem.activity a =>
    ChronologicalItem.activity
      { a with startTime := some event.eventTime, status := "STARTED",
               relatedEventIds := a.relatedEventIds ++ [event.eventId] }
  | x => x

/-- In-place update applied to the matched activity by an activity-terminal
event; a Completed event with a result payload also attaches the payload. -/
def activityTerminalUpd (event : Event) : ChronologicalItem → ChronologicalItem
  | ChronologicalItem.activity a =>
    let a1 := { a with endTime := some event.eventTime,
                       status := activityTerminalStatus event.eventType,
                       relatedEventIds := a.relatedEventIds ++ [event.eventId] }
    match event.eventType,
          (event.activityTaskCompletedEventAttributes.bind
            ActivityTaskCompletedEventAttributes.result).bind ActivityResultRef.payloads with
    | EventType.ACTIVITY_TASK_COMPLETED, some p =>
      ChronologicalItem.activity { a1 with payload := some p }
    | _, _ => ChronologicalItem.activity a1
  | x => x

/-- One iteration of the `for (const event of events)` loop: the big
`switch (event.eventType)` of `parseTemporalHistory`. -/
def handleEvent (st : ParseState) (event : Event) : ParseState :=
  match event.eventType with
  | EventType.WORKFLOW_EXECUTION_STARTED =>
    match event.workflowExecutionStartedEventAttributes with
    | some attrs =>
      let wf : Workflow :=
        { itemType := "workflow"
          workflowId := attrs.workflowId
          runId := some attrs.firstExecutionRunId
          workflowType := some attrs.workflowType.name
          startTime := some event.eventTime
          endTime := none
          status := "RUNNING"
          relatedEventIds := [event.eventId]
          payload := attrs.input.map PayloadRef.payloads
          parentWorkflowId := none
          parentRunId := none
          workflowTaskCompletedEventId := none }
      { st with
        workflowMap := insertAssoc attrs.workflowId st.chronologicalList.length st.workflowMap
        chronologicalList := st.chronologicalList ++ [ChronologicalItem.workflow wf]
        workflowStack := attrs.workflowId :: st.workflowStack }
    | none => st
  | EventType.WORKFLOW_EXECUTION_COMPLETED
  | EventType.WORKFLOW_EXECUTION_FAILED
  | EventType.WORKFLOW_EXECUTION_TIMED_OUT
  | EventType.WORKFLOW_EXECUTION_CANCELED
  | EventType.WORKFLOW_EXECUTION_TERMINATED =>
    let st1 :=
      match st.workflowStack.head? with
      | some topId =>
        match lookupAssoc topId st.workflowMap with
        | some i =>
          let f : Workflow → Workflow := fun w =>
            { w with endTime := some event.eventTime,
                     relatedEventIds := w.relatedEventIds ++ [event.eventId],
                     status := workflowTerminalStatus event.eventType }
          { st with chronologicalList := modifyWorkflowAt st.chronologicalList i f }
        | none => st
      | none => st
    { st1 with workflowStack := st1.workflowStack.tail }
  | EventType.ACTIVITY_TASK_SCHEDULED =>
    match st.workflowStack.head?, event.activityTaskScheduledEventAttributes with
    | some topId, some attrs =>
      if topId = "" then st
      else
        let act : Activity :=
          { activityId := attrs.activityId
            activityType := attrs.activityType.name
            workflowId := topId
            scheduleTime := some event.eventTime
            startTime := none
            endTime := none
            status := "SCHEDULED"
            relatedEventIds := [event.eventId]
            payload := none
            workflowTaskCompletedEventId := some attrs.workflowTaskCompletedEventId }
        { st with
          activityMap := insertAssoc (topId ++ ":" ++ attrs.activityId) st.chronologicalList.length st.activityMap
          chronologicalList := st.chronologicalList ++ [ChronologicalItem.activity act] }
    | _, _ => st
  | EventType.ACTIVITY_TASK_STARTED =>
    match event.activityTaskStartedEventAttributes with
    | some _ =>
      let l := updateLast (activityStartedPred st.workflowStack.head?) (activityStartedUpd event) st.chronologicalList
      { st with chronologicalList := l }
    | none => st
  | EventType.ACTIVITY_TASK_COMPLETED
  | EventType.ACTIVITY_TASK_FAILED
  | EventType.ACTIVITY_TASK_TIMED_OUT
  | EventType.ACTIVITY_TASK_CANCELED =>
    let l := updateLast (activityTerminalPred st.workflowStack.head?) (activityTerminalUpd event) st.chronologicalList
    { st with chronologicalList := l }
  | EventType.CHILD_WORKFLOW_EXECUTION_COMPLETED =>
    match event.childWorkflowExecutionCompletedEventAttributes with
    | some attrs =>
      match attrs.workflowExecution with
      | some we =>
        match lookupAssoc we.workflowId st.workflowMap with
        | some i =>
          let f : Workflow → Workflow := fun w =>
            { w with endTime := some event.eventTime, status := "COMPLETED",
                     relatedEventIds := w.relatedEventIds ++ [event.eventId] }
          { st with chronologicalList := modifyWorkflowAt st.chronologicalList i f }
        | none => st
      | none => st
    | none => st
  | EventType.CHILD_WORKFLOW_EXECUTION_STARTED =>
    match event.childWorkflowExecutionStartedEventAttributes with
    | some attrs =>
      match attrs.workflowExecution with
      | some we =>
        match lookupAssoc we.workflowId st.workflowMap with
        | some i =>
          let f : Workflow → Workflow := fun w =>
            { w with startTime := some event.eventTime,
                     relatedEventIds := w.relatedEventIds ++ [event.eventId] }
          { st with chronologicalList := modifyWorkflowAt st.chronologicalList i f }
        | none =>
          let childWorkflow : Workflow :=
            { itemType := "childWorkflow"
              workflowId := we.workflowId
              runId := some we.runId
              workflowType := attrs.workflowType.map TypeRef.name
              startTime := some event.eventTime
              endTime := none
              status := "RUNNING"
              relatedEventIds := [event.eventId]
              payload := none
              parentWorkflowId := attrs.parentWorkflowExecution.map WorkflowExecutionRef.workflowId
              parentRunId := attrs.parentWorkflowExecution.map WorkflowExecutionRef.runId
              workflowTaskCompletedEventId := none }
          { st with
            workflowMap := insertAssoc we.workflowId st.chronologicalList.length st.workflowMap
            chronologicalList := st.chronologicalList ++ [ChronologicalItem.workflow childWorkflow]
            workflowStack := we.workflowId :: st.workflowStack }
      | none => st
    | none => st
  | EventType.START_CHILD_WORKFLOW_EXECUTION_INITIATED =>
    match event.startChildWorkflowExecutionInitiatedEventAttributes with
    | some attrs =>
      match lookupAssoc attrs.workflowId st.workflowMap with
      | some i =>
        let f : Workflow → Workflow := fun w =>
          { w with startTime := some event.eventTime,
                   relatedEventIds := w.relatedEventIds ++ [event.eventId],
                   workflowTaskCompletedEventId := some attrs.workflowTaskCompletedEventId }
        { st with chronologicalList := modifyWorkflowAt st.chronologicalList i f }
      | none =>
        let childWorkflow : Workflow :=
          { itemType := "childWorkflow"
            workflowId := attrs.workflowId
            runId := none
            workflowType := attrs.workflowType.map TypeRef.name
            startTime := some event.eventTime
            endTime := none
            status := "RUNNING"
            relatedEventIds := [event.eventId]
            payload := none
            parentWorkflowId := some attrs.workflowId
            parentRunId := none
            workflowTaskCompletedEventId := some attrs.workflowTaskCompletedEventId }
        { st with
          workflowMap := insertAssoc attrs.workflowId st.chronologicalList.length st.workflowMap
          chronologicalList := st.chronologicalList ++ [ChronologicalItem.workflow childWorkflow] }
    | none => st
  | EventType.OTHER => st

/-- `parseTemporalHistory` as a fold of `handleEvent`, returning the full
final state (needed to speak about the scope stack and maps). -/
def runParse (events : List Event) : ParseState :=
  events.foldl handleEvent initState

/-- `parseTemporalHistory(events)`: the chronological list produced by the
single pass. -/
def parseTemporalHistory (events : List Event) : List ChronologicalItem :=
  (runParse events).chronologicalList

/-!
### Fetch layer

`getWorkflowData` (src/temporal.service.ts, lines 55-74) loops: fetch a
page, throw on a non-ok response, accumulate `data.history.events`, repeat
while `nextPageToken` is set.  We model the upstream as the list of
responses it would give to the successive requests; the error carried by
the thrown `Error` is the upstream HTTP status.
-/

/-- One upstream response: either an ok page `{history: {events}, nextPageToken}`
or a non-success HTTP response with its status. -/
inductive UpstreamResp
  | ok (events : List Event) (nextPageToken : Option String)
  | fail (status : Nat)
deriving DecidableEq

/-- The do-while pagination loop of `getWorkflowData`.  A `fail` response
makes the whole fetch throw (carrying the upstream status); the empty
response list (upstream stops answering although a token was pending) is
mapped to status 0 — it never occurs in the scenarios of interest. -/
def getWorkflowData : List UpstreamResp → Except Nat (List Event)
  | [] => Except.error 0
  | UpstreamResp.fail s :: _ => Except.error s
  | UpstreamResp.ok evs none :: _ => Except.ok evs
  | UpstreamResp.ok evs (some _) :: rest =>
    match getWorkflowData rest with
    | Except.ok more => Except.ok (evs ++ more)
    | Except.error e => Except.error e

/-- Modelled from the spec: the error taxonomy of the production history
fetch (`NotFound` / `UpstreamError`, spec sections 4.1 and 7).  The service
version throwing `NotFoundException` and the `excpetions` module are not
under src/; only their caller (the route handler in `unnamed/part_000`)
is. -/
inductive FetchError
  | NotFound
  | UpstreamError (status : Nat)
deriving DecidableEq

/-- Modelled from the spec: the production pagination loop, identical to
`getWorkflowData` except that a non-success upstream response is
classified — "upstream reports no such execution" (HTTP 404) becomes
`NotFound`, any other non-success status `s` becomes `UpstreamError s`.
No retry: a single failing page aborts the whole fetch. -/
def fetchHistory : List UpstreamResp → Except FetchError (List Event)
  | [] => Except.error (FetchError.UpstreamError 0)
  | UpstreamResp.fail s :: _ =>
    if s = 404 then Except.error FetchError.NotFound
    else Except.error (FetchError.UpstreamError s)
  | UpstreamResp.ok evs none :: _ => Except.ok evs
  | UpstreamResp.ok evs (some _) :: rest =>
    match fetchHistory rest with
    | Except.ok more => Except.ok (evs ++ more)
    | Except.error e => Except.error e

/-!
### Tree assembly

`getRootWorkflowData` (src/temporal.service.ts, lines 32-53) fetches and
parses the root, then walks the root's items; for every item of type
`'childWorkflow'` it tries to fetch and parse that child, catching (and
only logging) any per-child failure.  The network is abstracted as a
function from workflow id to the fetch outcome.
-/

structure TemporalWorkflowChronologicalItems where
  rootWorkflow : List ChronologicalItem
  childWorkflows : List (String × List ChronologicalItem)
deriving DecidableEq

/-- The `for (const item of rootWorkflowChronologicalItems)` loop with its
try/catch: child fetch failures are swallowed, successes are recorded in
`childWorkflowsMap`. -/
def collectChildren (fetch : String → Except ε (List Event)) :
    List ChronologicalItem → List (String × List ChronologicalItem) → List (String × List ChronologicalItem)
  | [], m => m
  | item :: rest, m =>
    match item with
    | ChronologicalItem.workflow w =>
      if w.itemType = "childWorkflow" then
        match fetch w.workflowId with
        | Except.ok evs => collectChildren fetch rest (insertAssoc w.workflowId (parseTemporalHistory evs) m)
        | Except.error _ => collectChildren fetch rest m
      else collectChildren fetch rest m
    | _ => collectChildren fetch rest m

/-- `getRootWorkflowData`: fetch + parse the root (a root failure
propagates), then assemble the child map. -/
def getRootWorkflowData (fetch : String → Except ε (List Event)) (rootWorkflowId : String) :
    Except ε TemporalWorkflowChronologicalItems :=
  match fetch rootWorkflowId with
  | Except.error e => Except.error e
  | Except.ok evs =>
    let root := parseTemporalHistory evs
    Except.ok ⟨root, collectChildren fetch root []⟩

/-- The `GET /workflow` handler of `unnamed/part_000`: 200 on success,
404 when the failure is the not-found exception, 500 for any other
failure. -/
def workflowRouteStatus (result : Except FetchError TemporalWorkflowChronologicalItems) : Nat :=
  match result with
  | Except.ok _ => 200
  | Except.error FetchError.NotFound => 404
  | Except.error (FetchError.UpstreamError _) => 500

/-!
### Concrete event builders

Helpers to write down small concrete histories for counterexamples and
witnesses.
-/

/-- An event with no attribute objects; the builders below fill in the
relevant one. -/
def baseEvent (id t : Nat) (k : EventType) : Event :=
  ⟨id, t, k, none, none, none, none, none, none, none⟩

def wesEvent (id t : Nat) (wfId runId ty : String) : Event :=
  { baseEvent id t EventType.WORKFLOW_EXECUTION_STARTED with
    workflowExecutionStartedEventAttributes := some ⟨wfId, runId, ⟨ty⟩, none⟩ }

def wfTerminalEvent (id t : Nat) (k : EventType) : Event :=
  baseEvent id t k

def actScheduledEvent (id t : Nat) (actId ty : String) (wtce : Nat) : Event :=
  { baseEvent id t EventType.ACTIVITY_TASK_SCHEDULED with
    activityTaskScheduledEventAttributes := some ⟨actId, ⟨ty⟩, wtce⟩ }

def actStartedEvent (id t : Nat) (scheduledEventId : Nat) : Event :=
  { baseEvent id t EventType.ACTIVITY_TASK_STARTED with
    activityTaskStartedEventAttributes := some ⟨scheduledEventId⟩ }

def actCompletedEvent (id t : Nat) (payloads : Option (List String)) : Event :=
  { baseEvent id t EventType.ACTIVITY_TASK_COMPLETED with
    activityTaskCompletedEventAttributes := some ⟨some ⟨payloads⟩⟩ }

def childStartedEvent (id t : Nat) (wfId runId : String) (parent : Option (String × String)) (ty : String) : Event :=
  { baseEvent id t EventType.CHILD_WORKFLOW_EXECUTION_STARTED with
    childWorkflowExecutionStartedEventAttributes :=
      some ⟨some ⟨wfId, runId⟩, parent.map (fun pr => ⟨pr.1, pr.2⟩), some ⟨ty⟩⟩ }

def childCompletedEvent (id t : Nat) (wfId runId : String) : Event :=
  { baseEvent id t EventType.CHILD_WORKFLOW_EXECUTION_COMPLETED with
    childWorkflowExecutionCompletedEventAttributes := some ⟨some ⟨wfId, runId⟩⟩ }

def initiatedEvent (id t : Nat) (wfId ty : String) (wtce : Nat) : Event :=
  { baseEvent id t EventType.START_CHILD_WORKFLOW_EXECUTION_INITIATED with
    startChildWorkflowExecutionInitiatedEventAttributes := some ⟨wfId, some ⟨ty⟩, wtce⟩ }

/-!
### Generic lemmas about the association-list and backward-scan helpers
-/

theorem lookupAssoc_insertAssoc (k c : String) (v : α) (m : List (String × α)) :
    lookupAssoc c (insertAssoc k v m) = if k = c then some v else lookupAssoc c m := by
  induction m with
  | nil =>
    simp only [insertAssoc, lookupAssoc]
  | cons p rest ih =>
    by_cases h : p.1 = k
    · simp only [insertAssoc, if_pos h, lookupAssoc]
      by_cases h2 : k = c
      · simp [h2]
      · have h3 : ¬ p.1 = c := by rw [h]; exact h2
        simp [h2, h3, lookupAssoc]
    · simp only [insertAssoc, if_neg h, lookupAssoc]
      by_cases h3 : p.1 = c
      · have h4 : ¬ k = c := fun hkc => h (by rw [h3, hkc])
        simp [h3, h4]
      · simp [h3, ih]

theorem updateLast_cases (p : α → Bool) (f : α → α) (l : List α) :
    ((∀ x ∈ l, p x = false) ∧ updateLast p f l = l) ∨
    (∃ i a, l.get? i = some a ∧ p a = true ∧
      (∀ j b, i < j → l.get? j = some b → p b = false) ∧
      updateLast p f l = l.set i (f a)) := by
  induction l with
  | nil => exact Or.inl ⟨by simp, rfl⟩
  | cons x xs ih =>
    by_cases hany : xs.any p = true
    · right
      rcases ih with ⟨hall, _⟩ | ⟨i, a, hget, hp, hmax, heq⟩
      · exfalso
        rcases List.any_eq_true.mp hany with ⟨y, hy, hpy⟩
        rw [hall y hy] at hpy
        exact Bool.false_ne_true hpy
      · refine ⟨i + 1, a, by simpa using hget, hp, ?_, ?_⟩
        · intro j b hij hjb
          cases j with
          | zero => omega
          | succ j' =>
            have : i < j' := by omega
            exact hmax j' b this (by simpa using hjb)
        · simp [updateLast, hany, heq]
    · have hany' : xs.any p = false := by
        cases h : xs.any p with
        | false => rfl
        | true => exact absurd h hany
      have hnone : ∀ y ∈ xs, p y = false := by
        intro y hy
        cases hpy : p y with
        | false => rfl
        | true => exact absurd (List.any_eq_true.mpr ⟨y, hy, hpy⟩) hany
      by_cases hx : p x = true
      · right
        refine ⟨0, x, rfl, hx, ?_, ?_⟩
        · intro j b hj hjb
          cases j with
          | zero => omega
          | succ j' => exact hnone b (List.get?_mem (by simpa using hjb))
        · simp [updateLast, hany', hx]
      · have hx' : p x = false := by
          cases h : p x with
          | false => rfl
          | true => exact absurd h hx
        left
        constructor
        · intro y hy
          rcases List.mem_cons.mp hy with rfl | hmem
          · exact hx'
          · exact hnone y hmem
        · simp [updateLast, hany', hx']

theorem updateLast_of_forall_not (p : α → Bool) (f : α → α) (l : List α)
    (h : ∀ x ∈ l, p x = false) : updateLast p f l = l := by
  rcases updateLast_cases p f l with ⟨_, heq⟩ | ⟨i, a, hget, hp, _, _⟩
  · exact heq
  · rw [h a (List.get?_mem hget)] at hp
    exact absurd hp Bool.false_ne_true

theorem countP_set_of_eq (p : α → Bool) (l : List α) (i : Nat) (a b : α)
    (hget : l.get? i = some a) (hpb : p b = p a) :
    (l.set i b).countP p = l.countP p := by
  induction l generalizing i with
  | nil => simp at hget
  | cons x xs ih =>
    cases i with
    | zero =>
      simp only [List.get?] at hget
      cases hget
      simp [List.countP_cons, hpb]
    | succ i' =>
      simp only [List.get?] at hget
      simp [List.countP_cons, ih i' hget]

/-!
### Observers on timeline items
-/

/-- The identity of a logical timeline item: its TS discriminant together
with the identifiers that make it "the same item" across mutations. -/
def itemKey : ChronologicalItem → String × String × String
  | ChronologicalItem.workflow w => (w.itemType, w.workflowId, "")
  | ChronologicalItem.activity a => ("activity", a.workflowId, a.activityId)

def itemStart : ChronologicalItem → Option Nat
  | ChronologicalItem.workflow w => w.startTime
  | ChronologicalItem.activity a => a.startTime

def itemEnd : ChronologicalItem → Option Nat
  | ChronologicalItem.workflow w => w.endTime
  | ChronologicalItem.activity a => a.endTime

def isTerminalWorkflowStatus (s : String) : Bool :=
  s == "COMPLETED" || s == "FAILED" || s == "TIMED_OUT" || s == "CANCELED" || s == "TERMINATED"

theorem modifyWorkflowAt_shape (l : List ChronologicalItem) (i : Nat) (f : Workflow → Workflow) :
    modifyWorkflowAt l i f = l ∨
    ∃ w, l.get? i = some (ChronologicalItem.workflow w) ∧
      modifyWorkflowAt l i f = l.set i (ChronologicalItem.workflow (f w)) := by
  unfold modifyWorkflowAt
  cases hg : l.get? i with
  | none => exact Or.inl rfl
  | some item =>
    cases item with
    | workflow w => exact Or.inr ⟨w, rfl, rfl⟩
    | activity a => exact Or.inl rfl

/-- Master shape of one parser step: the output list is unchanged, grows by
exactly one freshly created item at the end, or has exactly one existing
item rewritten in place with its identity preserved; a rewrite either sets
the end time (leaving the start) or the start time (leaving the end), and
a rewrite of a workflow span either leaves the status alone or sets a
terminal status together with the end time. -/
theorem handleEvent_shape (st : ParseState) (e : Event) :
    (handleEvent st e).chronologicalList = st.chronologicalList ∨
    (∃ x, (handleEvent st e).chronologicalList = st.chronologicalList ++ [x] ∧
      (itemStart x = none ∨ itemStart x = some e.eventTime) ∧ itemEnd x = none) ∨
    (∃ i a y, st.chronologicalList.get? i = some a ∧
      (handleEvent st e).chronologicalList = st.chronologicalList.set i y ∧
      itemKey y = itemKey a ∧
      ((itemStart y = itemStart a ∧ itemEnd y = some e.eventTime) ∨
       (itemStart y = some e.eventTime ∧ itemEnd y = itemEnd a)) ∧
      (∀ wf, a = ChronologicalItem.workflow wf →
        ∃ wf', y = ChronologicalItem.workflow wf' ∧ wf'.workflowId = wf.workflowId ∧
          (wf'.status = wf.status ∨
            (isTerminalWorkflowStatus wf'.status = true ∧ wf'.endTime = some e.eventTime)))) := by
  obtain ⟨eid, et, ek, a1, a2, a3, a4, a5, a6, a7⟩ := e
  cases ek with
  | WORKFLOW_EXECUTION_STARTED =>
    cases a1 with
    | none => exact Or.inl rfl
    | some attrs =>
      refine Or.inr (Or.inl ⟨_, rfl, Or.inr rfl, rfl⟩)
  | WORKFLOW_EXECUTION_COMPLETED =>
    simp only [handleEvent]
    cases hh : st.workflowStack.head? with
    | none => exact Or.inl rfl
    | some topId =>
      dsimp only
      cases hl : lookupAssoc topId st.workflowMap with
      | none => exact Or.inl rfl
      | some i =>
        rcases modifyWorkflowAt_shape st.chronologicalList i
            (fun w => { w with endTime := some et,
                               relatedEventIds := w.relatedEventIds ++ [eid],
                               status := workflowTerminalStatus EventType.WORKFLOW_EXECUTION_COMPLETED }) with
          hm | ⟨w, hg, hm⟩
        · exact Or.inl hm
        · refine Or.inr (Or.inr ⟨i, _, _, hg, hm, rfl, Or.inl ⟨rfl, rfl⟩, ?_⟩)
          intro wf hwf
          injection hwf with hww
          subst hww
          exact ⟨_, rfl, rfl, Or.inr ⟨rfl, rfl⟩⟩
  | WORKFLOW_EXECUTION_FAILED =>
    simp only [handleEvent]
    cases hh : st.workflowStack.head? with
    | none => exact Or.inl rfl
    | some topId =>
      dsimp only
      cases hl : lookupAssoc topId st.workflowMap with
      | none => exact Or.inl rfl
      | some i =>
        rcases modifyWorkflowAt_shape st.chronologicalList i
            (fun w => { w with endTime := some et,
                               relatedEventIds := w.relatedEventIds ++ [eid],
                               status := workflowTerminalStatus EventType.WORKFLOW_EXECUTION_FAILED }) with
          hm | ⟨w, hg, hm⟩
        · exact Or.inl hm
        · refine Or.inr (Or.inr ⟨i, _, _, hg, hm, rfl, Or.inl ⟨rfl, rfl⟩, ?_⟩)
          intro wf hwf
          injection hwf with hww
          subst hww
          exact ⟨_, rfl, rfl, Or.inr ⟨rfl, rfl⟩⟩
  | WORKFLOW_EXECUTION_TIMED_OUT =>
    simp only [handleEvent]
    cases hh : st.workflowStack.head? with
    | none => exact Or.inl rfl
    | some topId =>
      dsimp only
      cases hl : lookupAssoc topId st.workflowMap with
      | none => exact Or.inl rfl
      | some i =>
        rcases modifyWorkflowAt_shape st.chronologicalList i
            (fun w => { w with endTime := some et,
                               relatedEventIds := w.relatedEventIds ++ [eid],
                               status := workflowTerminalStatus EventType.WORKFLOW_EXECUTION_TIMED_OUT }) with
          hm | ⟨w, hg, hm⟩
        · exact Or.inl hm
        · refine Or.inr (Or.inr ⟨i, _, _, hg, hm, rfl, Or.inl ⟨rfl, rfl⟩, ?_⟩)
          intro wf hwf
          injection hwf with hww
          subst hww
          exact ⟨_, rfl, rfl, Or.inr ⟨rfl, rfl⟩⟩
  | WORKFLOW_EXECUTION_CANCELED =>
    simp only [handleEvent]
    cases hh : st.workflowStack.head? with
    | none => exact Or.inl rfl
    | some topId =>
      dsimp only
      cases hl : lookupAssoc topId st.workflowMap with
      | none => exact Or.inl rfl
      | some i =>
        rcases modifyWorkflowAt_shape st.chronologicalList i
            (fun w => { w with endTime := some et,
                               relatedEventIds := w.relatedEventIds ++ [eid],
                               status := workflowTerminalStatus EventType.WORKFLOW_EXECUTION_CANCELED }) with
          hm | ⟨w, hg, hm⟩
        · exact Or.inl hm
        · refine Or.inr (Or.inr ⟨i, _, _, hg, hm, rfl, Or.inl ⟨rfl, rfl⟩, ?_⟩)
          intro wf hwf
          injection hwf with hww
          subst hww
          exact ⟨_, rfl, rfl, Or.inr ⟨rfl, rfl⟩⟩
  | WORKFLOW_EXECUTION_TERMINATED =>
    simp only [handleEvent]
    cases hh : st.workflowStack.head? with
    | none => exact Or.inl rfl
    | some topId =>
      dsimp only
      cases hl : lookupAssoc topId st.workflowMap with
      | none => exact Or.inl rfl
      | some i =>
        rcases modifyWorkflowAt_shape st.chronologicalList i
            (fun w => { w with endTime := some et,
                               relatedEventIds := w.relatedEventIds ++ [eid],
                               status := workflowTerminalStatus EventType.WORKFLOW_EXECUTION_TERMINATED }) with
          hm | ⟨w, hg, hm⟩
        · exact Or.inl hm
        · refine Or.inr (Or.inr ⟨i, _, _, hg, hm, rfl, Or.inl ⟨rfl, rfl⟩, ?_⟩)
          intro wf hwf
          injection hwf with hww
          subst hww
          exact ⟨_, rfl, rfl, Or.inr ⟨rfl, rfl⟩⟩
  | ACTIVITY_TASK_SCHEDULED =>
    simp only [handleEvent]
    cases hh : st.workflowStack.head? with
    | none => exact Or.inl rfl
    | some topId =>
      cases a2 with
      | none => exact Or.inl rfl
      | some attrs =>
        dsimp only
        by_cases htop : topId = ""
        · simp only [htop, if_pos rfl]
          exact Or.inl rfl
        · simp only [if_neg htop]
          exact Or.inr (Or.inl ⟨_, rfl, Or.inl rfl, rfl⟩)
  | ACTIVITY_TASK_STARTED =>
    simp only [handleEvent]
    cases a3 with
    | none => exact Or.inl rfl
    | some attrs =>
      rcases updateLast_cases (activityStartedPred st.workflowStack.head?)
          (activityStartedUpd ⟨eid, et, EventType.ACTIVITY_TASK_STARTED, a1, a2, some attrs, a4, a5, a6, a7⟩)
          st.chronologicalList with ⟨_, heq⟩ | ⟨i, a, hget, hp, _, heq⟩
      · exact Or.inl heq
      · cases a with
        | workflow w => simp [activityStartedPred] at hp
        | activity act =>
          refine Or.inr (Or.inr ⟨i, _, _, hget, heq, rfl, Or.inr ⟨rfl, rfl⟩, ?_⟩)
          intro wf hwf
          exact absurd hwf (by simp)
  | ACTIVITY_TASK_COMPLETED =>
    simp only [handleEvent]
    rcases updateLast_cases (activityTerminalPred st.workflowStack.head?)
        (activityTerminalUpd ⟨eid, et, EventType.ACTIVITY_TASK_COMPLETED, a1, a2, a3, a4, a5, a6, a7⟩)
        st.chronologicalList with ⟨_, heq⟩ | ⟨i, a, hget, hp, _, heq⟩
    · exact Or.inl heq
    · cases a with
      | workflow w => simp [activityTerminalPred] at hp
      | activity act =>
        refine Or.inr (Or.inr ⟨i, _, _, hget, heq, ?_, ?_, ?_⟩)
        · cases hX : ((a4.bind ActivityTaskCompletedEventAttributes.result).bind ActivityResultRef.payloads) with
          | none => simp [activityTerminalUpd, itemKey, hX]
          | some p => simp [activityTerminalUpd, itemKey, hX]
        · left
          cases hX : ((a4.bind ActivityTaskCompletedEventAttributes.result).bind ActivityResultRef.payloads) with
          | none => simp [activityTerminalUpd, itemStart, itemEnd, hX]
          | some p => simp [activityTerminalUpd, itemStart, itemEnd, hX]
        · intro wf hwf
          exact absurd hwf (by simp)
  | ACTIVITY_TASK_FAILED =>
    simp only [handleEvent]
    rcases updateLast_cases (activityTerminalPred st.workflowStack.head?)
        (activityTerminalUpd ⟨eid, et, EventType.ACTIVITY_TASK_FAILED, a1, a2, a3, a4, a5, a6, a7⟩)
        st.chronologicalList with ⟨_, heq⟩ | ⟨i, a, hget, hp, _, heq⟩
    · exact Or.inl heq
    · cases a with
      | workflow w => simp [activityTerminalPred] at hp
      | activity act =>
        refine Or.inr (Or.inr ⟨i, _, _, hget, heq, by simp [activityTerminalUpd, itemKey],
          Or.inl (by simp [activityTerminalUpd, itemStart, itemEnd]), ?_⟩)
        intro wf hwf
        exact absurd hwf (by simp)
  | ACTIVITY_TASK_TIMED_OUT =>
    simp only [handleEvent]
    rcases updateLast_cases (activityTerminalPred st.workflowStack.head?)
        (activityTerminalUpd ⟨eid, et, EventType.ACTIVITY_TASK_TIMED_OUT, a1, a2, a3, a4, a5, a6, a7⟩)
        st.chronologicalList with ⟨_, heq⟩ | ⟨i, a, hget, hp, _, heq⟩
    · exact Or.inl heq
    · cases a with
      | workflow w => simp [activityTerminalPred] at hp
      | activity act =>
        refine Or.inr (Or.inr ⟨i, _, _, hget, heq, by simp [activityTerminalUpd, itemKey],
          Or.inl (by simp [activityTerminalUpd, itemStart, itemEnd]), ?_⟩)
        intro wf hwf
        exact absurd hwf (by simp)
  | ACTIVITY_TASK_CANCELED =>
    simp only [handleEvent]
    rcases updateLast_cases (activityTerminalPred st.workflowStack.head?)
        (activityTerminalUpd ⟨eid, et, EventType.ACTIVITY_TASK_CANCELED, a1, a2, a3, a4, a5, a6, a7⟩)
        st.chronologicalList with ⟨_, heq⟩ | ⟨i, a, hget, hp, _, heq⟩
    · exact Or.inl heq
    · cases a with
      | workflow w => simp [activityTerminalPred] at hp
      | activity act =>
        refine Or.inr (Or.inr ⟨i, _, _, hget, heq, by simp [activityTerminalUpd, itemKey],
          Or.inl (by simp [activityTerminalUpd, itemStart, itemEnd]), ?_⟩)
        intro wf hwf
        exact absurd hwf (by simp)
  | CHILD_WORKFLOW_EXECUTION_STARTED =>
    simp only [handleEvent]
    cases a5 with
    | none => exact Or.inl rfl
    | some attrs =>
      dsimp only
      cases hwe : attrs.workflowExecution with
      | none => exact Or.inl rfl
      | some we =>
        dsimp only
        cases hl : lookupAssoc we.workflowId st.workflowMap with
        | some i =>
          rcases modifyWorkflowAt_shape st.chronologicalList i
              (fun w => { w with startTime := some et,
                                 relatedEventIds := w.relatedEventIds ++ [eid] }) with
            hm | ⟨w, hg, hm⟩
          · exact Or.inl hm
          · refine Or.inr (Or.inr ⟨i, _, _, hg, hm, rfl, Or.inr ⟨rfl, rfl⟩, ?_⟩)
            intro wf hwf
            injection hwf with hww
            subst hww
            exact ⟨_, rfl, rfl, Or.inl rfl⟩
        | none =>
          exact Or.inr (Or.inl ⟨_, rfl, Or.inr rfl, rfl⟩)
  | CHILD_WORKFLOW_EXECUTION_COMPLETED =>
    simp only [handleEvent]
    cases a6 with
    | none => exact Or.inl rfl
    | some attrs =>
      dsimp only
      cases hwe : attrs.workflowExecution with
      | none => exact Or.inl rfl
      | some we =>
        dsimp only
        cases hl : lookupAssoc we.workflowId st.workflowMap with
        | none => exact Or.inl rfl
        | some i =>
          rcases modifyWorkflowAt_shape st.chronologicalList i
              (fun w => { w with endTime := some et, status := "COMPLETED",
                                 relatedEventIds := w.relatedEventIds ++ [eid] }) with
            hm | ⟨w, hg, hm⟩
          · exact Or.inl hm
          · refine Or.inr (Or.inr ⟨i, _, _, hg, hm, rfl, Or.inl ⟨rfl, rfl⟩, ?_⟩)
            intro wf hwf
            injection hwf with hww
            subst hww
            exact ⟨_, rfl, rfl, Or.inr ⟨rfl, rfl⟩⟩
  | START_CHILD_WORKFLOW_EXECUTION_INITIATED =>
    simp only [handleEvent]
    cases a7 with
    | none => exact Or.inl rfl
    | some attrs =>
      dsimp only
      cases hl : lookupAssoc attrs.workflowId st.workflowMap with
      | some i =>
        rcases modifyWorkflowAt_shape st.chronologicalList i
            (fun w => { w with startTime := some et,
                               relatedEventIds := w.relatedEventIds ++ [eid],
                               workflowTaskCompletedEventId := some attrs.workflowTaskCompletedEventId }) with
          hm | ⟨w, hg, hm⟩
        · exact Or.inl hm
        · refine Or.inr (Or.inr ⟨i, _, _, hg, hm, rfl, Or.inr ⟨rfl, rfl⟩, ?_⟩)
          intro wf hwf
          injection hwf with hww
          subst hww
          exact ⟨_, rfl, rfl, Or.inl rfl⟩
      | none =>
        exact Or.inr (Or.inl ⟨_, rfl, Or.inr rfl, rfl⟩)
  | OTHER => exact Or.inl rfl

theorem length_le_handleEvent (st : ParseState) (e : Event) :
    st.chronologicalList.length ≤ (handleEvent st e).chronologicalList.length := by
  rcases handleEvent_shape st e with h | ⟨x, h, _⟩ | ⟨i, a, y, _, h, _⟩ <;> rw [h] <;> simp

theorem mapKey_get?_handleEvent (st : ParseState) (e : Event) (i : Nat)
    (hi : i < st.chronologicalList.length) :
    ((handleEvent st e).chronologicalList.map itemKey).get? i =
    (st.chronologicalList.map itemKey).get? i := by
  rcases handleEvent_shape st e with h | ⟨x, h, _⟩ | ⟨j, a, y, hg, h, hkey, _⟩
  · rw [h]
  · rw [h, List.map_append]
    exact List.get?_append (by simpa using hi)
  · rw [h, List.map_set]
    by_cases hij : j = i
    · subst hij
      have hj : j < st.chronologicalList.length := (List.get?_eq_some.mp hg).1
      rw [List.get?_set_eq_of_lt _ (by simpa using hj), List.get?_map, hg, hkey]
      rfl
    · exact List.get?_set_ne _ _ hij

theorem mapKey_stable_fold (st : ParseState) (more : List Event) (i : Nat)
    (hi : i < st.chronologicalList.length) :
    ((List.foldl handleEvent st more).chronologicalList.map itemKey).get? i =
    (st.chronologicalList.map itemKey).get? i := by
  induction more generalizing st with
  | nil => rfl
  | cons e rest ih =>
    have h2 := ih (handleEvent st e) (lt_of_lt_of_le hi (length_le_handleEvent st e))
    calc ((List.foldl handleEvent st (e :: rest)).chronologicalList.map itemKey).get? i
        = ((List.foldl handleEvent (handleEvent st e) rest).chronologicalList.map itemKey).get? i := rfl
      _ = ((handleEvent st e).chronologicalList.map itemKey).get? i := h2
      _ = (st.chronologicalList.map itemKey).get? i := mapKey_get?_handleEvent st e i hi

/-- Claim C5: the output list evolves by appending a fresh item at the end
or mutating one existing item in place with its identity (discriminant,
workflow id, activity id) preserved — never by inserting, removing or
reordering; consequently the key at any already-emitted position is stable
under processing further events, i.e. output order is first-appearance
order. -/
theorem outputInsertionOrder :
    (∀ (st : ParseState) (e : Event),
      (handleEvent st e).chronologicalList = st.chronologicalList ∨
      (∃ x, (handleEvent st e).chronologicalList = st.chronologicalList ++ [x]) ∨
      (∃ i a y, st.chronologicalList.get? i = some a ∧ itemKey y = itemKey a ∧
        (handleEvent st e).chronologicalList = st.chronologicalList.set i y)) ∧
    (∀ (es more : List Event) (i : Nat), i < (parseTemporalHistory es).length →
      ((parseTemporalHistory (es ++ more)).map itemKey).get? i =
      ((parseTemporalHistory es).map itemKey).get? i) := by
  constructor
  · intro st e
    rcases handleEvent_shape st e with h | ⟨x, h, _⟩ | ⟨i, a, y, hg, h, hkey, _⟩
    · exact Or.inl h
    · exact Or.inr (Or.inl ⟨x, h⟩)
    · exact Or.inr (Or.inr ⟨i, a, y, hg, hkey, h⟩)
  · intro es more i hi
    have hsplit : runParse (es ++ more) = List.foldl handleEvent (runParse es) more := by
      simp [runParse, List.foldl_append]
    show ((runParse (es ++ more)).chronologicalList.map itemKey).get? i =
      ((runParse es).chronologicalList.map itemKey).get? i
    rw [hsplit]
    exact mapKey_stable_fold (runParse es) more i hi

/-- Claim C3 (amended): processing one event can only change an existing
WorkflowSpan's status by installing a terminal status together with the
event's end time; the status never becomes RUNNING again and the span keeps
its workflow id and its position.  (The original claim's "assigned at most
once" fails: terminal statuses and end times can be overwritten, see the
counterexample.) -/
theorem workflowStatusOnlyBecomesTerminal (st : ParseState) (e : Event) (i : Nat) (wf : Workflow)
    (h : st.chronologicalList.get? i = some (ChronologicalItem.workflow wf)) :
    ∃ wf', (handleEvent st e).chronologicalList.get? i = some (ChronologicalItem.workflow wf') ∧
      wf'.workflowId = wf.workflowId ∧
      (wf'.status = wf.status ∨
        (isTerminalWorkflowStatus wf'.status = true ∧ wf'.endTime = some e.eventTime)) := by
  rcases handleEvent_shape st e with heq | ⟨x, heq, _⟩ | ⟨j, a, y, hg, heq, hkey, _, hwf⟩
  · exact ⟨wf, by rw [heq, h], rfl, Or.inl rfl⟩
  · refine ⟨wf, ?_, rfl, Or.inl rfl⟩
    have hi : i < st.chronologicalList.length := (List.get?_eq_some.mp h).1
    rw [heq, List.get?_append hi, h]
  · by_cases hij : j = i
    · subst hij
      rw [hg] at h
      injection h with h'
      obtain ⟨wf', hy, hid, hstat⟩ := hwf wf h'
      refine ⟨wf', ?_, hid, hstat⟩
      have hj : j < st.chronologicalList.length := (List.get?_eq_some.mp hg).1
      rw [heq, List.get?_set_eq_of_lt _ hj, hy]
    · refine ⟨wf, ?_, rfl, Or.inl rfl⟩
      rw [heq, List.get?_set_ne _ _ hij, h]

/-- Claim C10: a StartChildWorkflowExecutionInitiated event for a workflow
id not yet registered appends a placeholder child WorkflowSpan whose
parent workflow identifier is the child's *own* workflow id, with no
parent run id and no run id. -/
theorem initiatedPlaceholderParentIsSelf (st : ParseState) (e : Event)
    (attrs : StartChildWorkflowExecutionInitiatedEventAttributes)
    (hk : e.eventType = EventType.START_CHILD_WORKFLOW_EXECUTION_INITIATED)
    (ha : e.startChildWorkflowExecutionInitiatedEventAttributes = some attrs)
    (hm : lookupAssoc attrs.workflowId st.workflowMap = none) :
    ∃ wf : Workflow,
      (handleEvent st e).chronologicalList = st.chronologicalList ++ [ChronologicalItem.workflow wf] ∧
      wf.itemType = "childWorkflow" ∧ wf.workflowId = attrs.workflowId ∧
      wf.parentWorkflowId = some attrs.workflowId ∧ wf.parentRunId = none ∧ wf.runId = none := by
  obtain ⟨eid, et, ek, a1, a2, a3, a4, a5, a6, a7⟩ := e
  subst hk
  simp only at ha
  subst ha
  simp only [handleEvent]
  rw [hm]
  exact ⟨_, rfl, rfl, rfl, rfl, rfl, rfl⟩

/-- Claim C4 (amended): a terminal workflow event pops exactly one scope
level whenever the stack is nonempty, whether or not a span was found for
the stack top — on an empty stack the state is unchanged (the original
"exactly one entry, regardless" fails there).  When the top resolves to a
registered span, its end time is set, the event id appended and the status
set according to the specific terminal kind; otherwise the output list is
untouched. -/
theorem terminalEventPopsOne (st : ParseState) (e : Event)
    (hk : isWorkflowTerminalEvent e.eventType = true) :
    (handleEvent st e).workflowStack = st.workflowStack.tail ∧
    (handleEvent st e).workflowMap = st.workflowMap ∧
    (st.workflowStack ≠ [] → (handleEvent st e).workflowStack.length + 1 = st.workflowStack.length) ∧
    (st.workflowStack = [] → handleEvent st e = st) ∧
    (∀ topId i wf, st.workflowStack.head? = some topId →
      lookupAssoc topId st.workflowMap = some i →
      st.chronologicalList.get? i = some (ChronologicalItem.workflow wf) →
      (handleEvent st e).chronologicalList = st.chronologicalList.set i
        (ChronologicalItem.workflow
          { wf with endTime := some e.eventTime,
                    relatedEventIds := wf.relatedEventIds ++ [e.eventId],
                    status := workflowTerminalStatus e.eventType })) ∧
    (st.workflowStack.head?.bind (fun t => lookupAssoc t st.workflowMap) = none →
      (handleEvent st e).chronologicalList = st.chronologicalList) := by
  obtain ⟨cl, wm, am, ws⟩ := st
  obtain ⟨eid, et, ek, a1, a2, a3, a4, a5, a6, a7⟩ := e
  cases ek <;> simp only [isWorkflowTerminalEvent] at hk <;>
    try exact absurd hk Bool.false_ne_true
  all_goals
    cases ws with
    | nil =>
      refine ⟨?_, ?_, fun hne => absurd rfl hne, fun _ => ?_, ?_, fun _ => ?_⟩
      · simp [handleEvent]
      · simp [handleEvent]
      · simp [handleEvent]
      · intro topId i wf hh
        exact absurd hh (by simp)
      · simp [handleEvent]
    | cons top rest =>
      refine ⟨?_, ?_, fun _ => ?_, fun hcon => absurd hcon (by simp), ?_, ?_⟩
      · cases hl : lookupAssoc top wm with
        | none => simp [handleEvent, hl]
        | some i => simp [handleEvent, hl]
      · cases hl : lookupAssoc top wm with
        | none => simp [handleEvent, hl]
        | some i => simp [handleEvent, hl]
      · cases hl : lookupAssoc top wm with
        | none => simp [handleEvent, hl]
        | some i => simp [handleEvent, hl]
      · intro topId i wf hh hli hget
        injection hh with hh'
        subst hh'
        simp only [List.get?_eq_getElem?] at hget
        simp [handleEvent, hli, modifyWorkflowAt, hget]
      · intro hb
        simp only [List.head?, Option.some_bind] at hb
        simp [handleEvent, hb]

/-- Is this an event resolved by the backward scan over open activities:
an ActivityTaskStarted event carrying its attributes, or any of the four
activity-terminal kinds. -/
def isActivityResolutionEvent (e : Event) : Bool :=
  (e.eventType == EventType.ACTIVITY_TASK_STARTED && e.activityTaskStartedEventAttributes.isSome) ||
  isActivityTerminalEvent e.eventType

/-- The "still-open matching span" condition of the backward scan: owned by
the current scope top, with status SCHEDULED (for Started) resp. SCHEDULED
or STARTED (for the terminal kinds). -/
def resolvesTo (top : Option String) : EventType → ChronologicalItem → Bool
  | EventType.ACTIVITY_TASK_STARTED => activityStartedPred top
  | _ => activityTerminalPred top

/-- The in-place update the resolving event applies to the matched span. -/
def resolutionUpdate (e : Event) : ChronologicalItem → ChronologicalItem :=
  match e.eventType with
  | EventType.ACTIVITY_TASK_STARTED => activityStartedUpd e
  | _ => activityTerminalUpd e

/-- Claim C1: an ActivityTaskStarted or activity-terminal event leaves the
stack and the workflow map alone and either (a) finds the *most recently
created still-open* matching ActivitySpan — the span at the greatest index
owned by the current scope top whose status is SCHEDULED (Started) resp.
SCHEDULED/STARTED (terminal kinds); every later span fails the match, in
particular every later open span with the same (owner, activity id) pair —
and rewrites exactly that span in place, or (b) no span matches and the
event is dropped with the output list unchanged. -/
theorem activityEventResolution (st : ParseState) (e : Event)
    (hk : isActivityResolutionEvent e = true) :
    (handleEvent st e).workflowStack = st.workflowStack ∧
    (handleEvent st e).workflowMap = st.workflowMap ∧
    (((∀ x ∈ st.chronologicalList, resolvesTo st.workflowStack.head? e.eventType x = false) ∧
       (handleEvent st e).chronologicalList = st.chronologicalList) ∨
     (∃ i a, st.chronologicalList.get? i = some a ∧
        resolvesTo st.workflowStack.head? e.eventType a = true ∧
        (∀ j b, i < j → st.chronologicalList.get? j = some b →
          resolvesTo st.workflowStack.head? e.eventType b = false) ∧
        (handleEvent st e).chronologicalList = st.chronologicalList.set i (resolutionUpdate e a))) := by
  obtain ⟨eid, et, ek, a1, a2, a3, a4, a5, a6, a7⟩ := e
  cases ek <;> simp only [isActivityResolutionEvent, isActivityTerminalEvent] at hk <;>
    try exact absurd (by simpa using hk) Bool.false_ne_true
  case ACTIVITY_TASK_STARTED =>
    cases a3 with
    | none => simp at hk
    | some attrs =>
      refine ⟨rfl, rfl, ?_⟩
      rcases updateLast_cases
          (activityStartedPred st.workflowStack.head?)
          (activityStartedUpd ⟨eid, et, EventType.ACTIVITY_TASK_STARTED, a1, a2, some attrs, a4, a5, a6, a7⟩)
          st.chronologicalList with ⟨hall, heq⟩ | ⟨i, a, hget, hp, hmax, heq⟩
      · exact Or.inl ⟨hall, heq⟩
      · exact Or.inr ⟨i, a, hget, hp, hmax, heq⟩
  case ACTIVITY_TASK_COMPLETED =>
    refine ⟨rfl, rfl, ?_⟩
    rcases updateLast_cases
        (activityTerminalPred st.workflowStack.head?)
        (activityTerminalUpd ⟨eid, et, EventType.ACTIVITY_TASK_COMPLETED, a1, a2, a3, a4, a5, a6, a7⟩)
        st.chronologicalList with ⟨hall, heq⟩ | ⟨i, a, hget, hp, hmax, heq⟩
    · exact Or.inl ⟨hall, heq⟩
    · exact Or.inr ⟨i, a, hget, hp, hmax, heq⟩
  case ACTIVITY_TASK_FAILED =>
    refine ⟨rfl, rfl, ?_⟩
    rcases updateLast_cases
        (activityTerminalPred st.workflowStack.head?)
        (activityTerminalUpd ⟨eid, et, EventType.ACTIVITY_TASK_FAILED, a1, a2, a3, a4, a5, a6, a7⟩)
        st.chronologicalList with ⟨hall, heq⟩ | ⟨i, a, hget, hp, hmax, heq⟩
    · exact Or.inl ⟨hall, heq⟩
    · exact Or.inr ⟨i, a, hget, hp, hmax, heq⟩
  case ACTIVITY_TASK_TIMED_OUT =>
    refine ⟨rfl, rfl, ?_⟩
    rcases updateLast_cases
        (activityTerminalPred st.workflowStack.head?)
        (activityTerminalUpd ⟨eid, et, EventType.ACTIVITY_TASK_TIMED_OUT, a1, a2, a3, a4, a5, a6, a7⟩)
        st.chronologicalList with ⟨hall, heq⟩ | ⟨i, a, hget, hp, hmax, heq⟩
    · exact Or.inl ⟨hall, heq⟩
    · exact Or.inr ⟨i, a, hget, hp, hmax, heq⟩
  case ACTIVITY_TASK_CANCELED =>
    refine ⟨rfl, rfl, ?_⟩
    rcases updateLast_cases
        (activityTerminalPred st.workflowStack.head?)
        (activityTerminalUpd ⟨eid, et, EventType.ACTIVITY_TASK_CANCELED, a1, a2, a3, a4, a5, a6, a7⟩)
        st.chronologicalList with ⟨hall, heq⟩ | ⟨i, a, hget, hp, hmax, heq⟩
    · exact Or.inl ⟨hall, heq⟩
    · exact Or.inr ⟨i, a, hget, hp, hmax, heq⟩

/-!
### Claim C2: at most one WorkflowSpan per workflow id
-/

def wfIdPred (w : String) : ChronologicalItem → Bool
  | ChronologicalItem.workflow wf => wf.workflowId == w
  | _ => false

/-- Number of workflow/childWorkflow spans in the output carrying a given
workflow id. -/
def countWf (w : String) (l : List ChronologicalItem) : Nat := l.countP (wfIdPred w)

/-- Invariant tying the workflow map to the output list: every map entry
points at a workflow span with the mapped id, ids without an entry have no
span, and no id has more than one span. -/
def WfMapInv (l : List ChronologicalItem) (m : List (String × Nat)) : Prop :=
  (∀ w i, lookupAssoc w m = some i →
    ∃ wf, l.get? i = some (ChronologicalItem.workflow wf) ∧ wf.workflowId = w) ∧
  (∀ w, lookupAssoc w m = none → countWf w l = 0) ∧
  (∀ w, countWf w l ≤ 1)

theorem countWf_append_workflow (w : String) (l : List ChronologicalItem) (wf : Workflow) :
    countWf w (l ++ [ChronologicalItem.workflow wf]) =
    countWf w l + (if wf.workflowId = w then 1 else 0) := by
  by_cases h : wf.workflowId = w <;>
    simp [countWf, List.countP_append, List.countP_cons, wfIdPred, h]

theorem countWf_append_activity (w : String) (l : List ChronologicalItem) (a : Activity) :
    countWf w (l ++ [ChronologicalItem.activity a]) = countWf w l := by
  simp [countWf, List.countP_append, List.countP_cons, wfIdPred]

theorem wfMapInv_append_new (l : List ChronologicalItem) (m : List (String × Nat)) (wf : Workflow)
    (hInv : WfMapInv l m) (h0 : lookupAssoc wf.workflowId m = none) :
    WfMapInv (l ++ [ChronologicalItem.workflow wf]) (insertAssoc wf.workflowId l.length m) := by
  obtain ⟨h1, h2, h3⟩ := hInv
  have hc0 : countWf wf.workflowId l = 0 := h2 _ h0
  refine ⟨?_, ?_, ?_⟩
  · intro w j hlk
    rw [lookupAssoc_insertAssoc] at hlk
    by_cases hw : wf.workflowId = w
    · rw [if_pos hw] at hlk
      injection hlk with h'
      subst h'
      exact ⟨wf, by rw [List.get?_concat_length], hw⟩
    · rw [if_neg hw] at hlk
      obtain ⟨wf0, hg, hid⟩ := h1 w j hlk
      have hj : j < l.length := (List.get?_eq_some.mp hg).1
      exact ⟨wf0, by rw [List.get?_append hj]; exact hg, hid⟩
  · intro w hlk
    rw [lookupAssoc_insertAssoc] at hlk
    by_cases hw : wf.workflowId = w
    · rw [if_pos hw] at hlk
      exact absurd hlk (by simp)
    · rw [if_neg hw] at hlk
      rw [countWf_append_workflow, h2 w hlk, if_neg hw]
  · intro w
    rw [countWf_append_workflow]
    by_cases hw : wf.workflowId = w
    · rw [if_pos hw, ← hw, hc0]
    · rw [if_neg hw]
      simpa using h3 w

theorem wfMapInv_append_activity (l : List ChronologicalItem) (m : List (String × Nat)) (a : Activity)
    (hInv : WfMapInv l m) :
    WfMapInv (l ++ [ChronologicalItem.activity a]) m := by
  obtain ⟨h1, h2, h3⟩ := hInv
  refine ⟨?_, ?_, ?_⟩
  · intro w j hlk
    obtain ⟨wf0, hg, hid⟩ := h1 w j hlk
    have hj : j < l.length := (List.get?_eq_some.mp hg).1
    exact ⟨wf0, by rw [List.get?_append hj]; exact hg, hid⟩
  · intro w hlk
    rw [countWf_append_activity]
    exact h2 w hlk
  · intro w
    rw [countWf_append_activity]
    exact h3 w

theorem wfMapInv_modify (l : List ChronologicalItem) (m : List (String × Nat)) (i : Nat)
    (f : Workflow → Workflow) (hInv : WfMapInv l m)
    (hf : ∀ w, (f w).workflowId = w.workflowId) :
    WfMapInv (modifyWorkflowAt l i f) m := by
  rcases modifyWorkflowAt_shape l i f with heq | ⟨w0, hg, heq⟩
  · rw [heq]; exact hInv
  · rw [heq]
    obtain ⟨h1, h2, h3⟩ := hInv
    refine ⟨?_, ?_, ?_⟩
    · intro w j hlk
      obtain ⟨wf, hgw, hid⟩ := h1 w j hlk
      by_cases hij : i = j
      · subst hij
        rw [hg] at hgw
        injection hgw with h'
        injection h' with h''
        subst h''
        have hi : i < l.length := (List.get?_eq_some.mp hg).1
        exact ⟨f w0, by rw [List.get?_set_eq_of_lt _ hi], by rw [hf w0]; exact hid⟩
      · exact ⟨wf, by rw [List.get?_set_ne _ _ hij]; exact hgw, hid⟩
    · intro w hlk
      rw [show countWf w (l.set i (ChronologicalItem.workflow (f w0))) = countWf w l from
        countP_set_of_eq _ _ _ _ _ hg (by simp [wfIdPred, hf w0])]
      exact h2 w hlk
    · intro w
      rw [show countWf w (l.set i (ChronologicalItem.workflow (f w0))) = countWf w l from
        countP_set_of_eq _ _ _ _ _ hg (by simp [wfIdPred, hf w0])]
      exact h3 w

theorem wfMapInv_updateLast (l : List ChronologicalItem) (m : List (String × Nat))
    (p : ChronologicalItem → Bool) (f : ChronologicalItem → ChronologicalItem)
    (hInv : WfMapInv l m)
    (hact : ∀ x, p x = true → ∃ a, x = ChronologicalItem.activity a)
    (hfact : ∀ a, ∃ b, f (ChronologicalItem.activity a) = ChronologicalItem.activity b) :
    WfMapInv (updateLast p f l) m := by
  rcases updateLast_cases p f l with ⟨_, heq⟩ | ⟨i, a, hget, hp, _, heq⟩
  · rw [heq]; exact hInv
  · obtain ⟨act, rfl⟩ := hact a hp
    obtain ⟨b, hfb⟩ := hfact act
    rw [heq, hfb]
    obtain ⟨h1, h2, h3⟩ := hInv
    refine ⟨?_, ?_, ?_⟩
    · intro w j hlk
      obtain ⟨wf, hgw, hid⟩ := h1 w j hlk
      have hij : i ≠ j := by
        intro h
        subst h
        rw [hget] at hgw
        simp at hgw
      exact ⟨wf, by rw [List.get?_set_ne _ _ hij]; exact hgw, hid⟩
    · intro w hlk
      rw [show countWf w (l.set i (ChronologicalItem.activity b)) = countWf w l from
        countP_set_of_eq _ _ _ _ _ hget (by simp [wfIdPred])]
      exact h2 w hlk
    · intro w
      rw [show countWf w (l.set i (ChronologicalItem.activity b)) = countWf w l from
        countP_set_of_eq _ _ _ _ _ hget (by simp [wfIdPred])]
      exact h3 w

theorem activityStartedUpd_activity (e : Event) (a : Activity) :
    ∃ b, activityStartedUpd e (ChronologicalItem.activity a) = ChronologicalItem.activity b :=
  ⟨_, rfl⟩

theorem activityTerminalUpd_activity (e : Event) (a : Activity) :
    ∃ b, activityTerminalUpd e (ChronologicalItem.activity a) = ChronologicalItem.activity b := by
  unfold activityTerminalUpd
  cases he : e.eventType <;>
    cases hX : ((e.activityTaskCompletedEventAttributes.bind
      ActivityTaskCompletedEventAttributes.result).bind ActivityResultRef.payloads) <;>
    exact ⟨_, rfl⟩

/-- No WorkflowExecutionStarted event (with attributes) targets a workflow
id that is already registered at that point of the pass. -/
def noDupStart : ParseState → List Event → Bool
  | _, [] => true
  | st, e :: rest =>
    (match e.eventType, e.workflowExecutionStartedEventAttributes with
     | EventType.WORKFLOW_EXECUTION_STARTED, some attrs =>
       (lookupAssoc attrs.workflowId st.workflowMap).isNone
     | _, _ => true) && noDupStart (handleEvent st e) rest

theorem wfMapInv_step (st : ParseState) (e : Event)
    (hInv : WfMapInv st.chronologicalList st.workflowMap)
    (hguard : ∀ attrs, e.eventType = EventType.WORKFLOW_EXECUTION_STARTED →
      e.workflowExecutionStartedEventAttributes = some attrs →
      lookupAssoc attrs.workflowId st.workflowMap = none) :
    WfMapInv (handleEvent st e).chronologicalList (handleEvent st e).workflowMap := by
  obtain ⟨cl, wm, am, ws⟩ := st
  obtain ⟨eid, et, ek, a1, a2, a3, a4, a5, a6, a7⟩ := e
  cases ek
  case WORKFLOW_EXECUTION_STARTED =>
    cases a1 with
    | none => exact hInv
    | some attrs =>
      exact wfMapInv_append_new cl wm _ hInv (hguard attrs rfl rfl)
  case ACTIVITY_TASK_SCHEDULED =>
    cases ws with
    | nil => exact hInv
    | cons top rest =>
      cases a2 with
      | none => exact hInv
      | some attrs =>
        by_cases htop : top = ""
        · subst htop
          exact hInv
        · simp only [handleEvent, List.head?, if_neg htop]
          exact wfMapInv_append_activity cl wm _ hInv
  case ACTIVITY_TASK_STARTED =>
    cases a3 with
    | none => exact hInv
    | some attrs =>
      refine wfMapInv_updateLast cl wm _ _ hInv ?_ ?_
      · intro x hx
        cases x with
        | workflow w => simp [activityStartedPred] at hx
        | activity a => exact ⟨a, rfl⟩
      · intro a
        exact ⟨_, rfl⟩
  case ACTIVITY_TASK_COMPLETED =>
    refine wfMapInv_updateLast cl wm _ _ hInv ?_ ?_
    · intro x hx
      cases x with
      | workflow w => simp [activityTerminalPred] at hx
      | activity a => exact ⟨a, rfl⟩
    · intro a
      exact activityTerminalUpd_activity _ a
  case ACTIVITY_TASK_FAILED =>
    refine wfMapInv_updateLast cl wm _ _ hInv ?_ ?_
    · intro x hx
      cases x with
      | workflow w => simp [activityTerminalPred] at hx
      | activity a => exact ⟨a, rfl⟩
    · intro a
      exact activityTerminalUpd_activity _ a
  case ACTIVITY_TASK_TIMED_OUT =>
    refine wfMapInv_updateLast cl wm _ _ hInv ?_ ?_
    · intro x hx
      cases x with
      | workflow w => simp [activityTerminalPred] at hx
      | activity a => exact ⟨a, rfl⟩
    · intro a
      exact activityTerminalUpd_activity _ a
  case ACTIVITY_TASK_CANCELED =>
    refine wfMapInv_updateLast cl wm _ _ hInv ?_ ?_
    · intro x hx
      cases x with
      | workflow w => simp [activityTerminalPred] at hx
      | activity a => exact ⟨a, rfl⟩
    · intro a
      exact activityTerminalUpd_activity _ a
  case CHILD_WORKFLOW_EXECUTION_COMPLETED =>
    cases a6 with
    | none => exact hInv
    | some attrs =>
      obtain ⟨we⟩ := attrs
      cases we with
      | none => exact hInv
      | some weRef =>
        cases hl : lookupAssoc weRef.workflowId wm with
        | none =>
          simp only [handleEvent, hl]
          exact hInv
        | some i =>
          simp only [handleEvent, hl]
          exact wfMapInv_modify cl wm i _ hInv (fun w => rfl)
  case CHILD_WORKFLOW_EXECUTION_STARTED =>
    cases a5 with
    | none => exact hInv
    | some attrs =>
      obtain ⟨we, pwe, ty⟩ := attrs
      cases we with
      | none => exact hInv
      | some weRef =>
        cases hl : lookupAssoc weRef.workflowId wm with
        | some i =>
          simp only [handleEvent, hl]
          exact wfMapInv_modify cl wm i _ hInv (fun w => rfl)
        | none =>
          simp only [handleEvent, hl]
          exact wfMapInv_append_new cl wm _ hInv hl
  case START_CHILD_WORKFLOW_EXECUTION_INITIATED =>
    cases a7 with
    | none => exact hInv
    | some attrs =>
      cases hl : lookupAssoc attrs.workflowId wm with
      | some i =>
        simp only [handleEvent, hl]
        exact wfMapInv_modify cl wm i _ hInv (fun w => rfl)
      | none =>
        simp only [handleEvent, hl]
        exact wfMapInv_append_new cl wm _ hInv hl
  case WORKFLOW_EXECUTION_COMPLETED =>
    cases ws with
    | nil => exact hInv
    | cons top rest =>
      cases hl : lookupAssoc top wm with
      | none =>
        simp only [handleEvent, List.head?, hl]
        exact hInv
      | some i =>
        simp only [handleEvent, List.head?, hl]
        exact wfMapInv_modify cl wm i _ hInv (fun w => rfl)
  case WORKFLOW_EXECUTION_FAILED =>
    cases ws with
    | nil => exact hInv
    | cons top rest =>
      cases hl : lookupAssoc top wm with
      | none =>
        simp only [handleEvent, List.head?, hl]
        exact hInv
      | some i =>
        simp only [handleEvent, List.head?, hl]
        exact wfMapInv_modify cl wm i _ hInv (fun w => rfl)
  case WORKFLOW_EXECUTION_TIMED_OUT =>
    cases ws with
    | nil => exact hInv
    | cons top rest =>
      cases hl : lookupAssoc top wm with
      | none =>
        simp only [handleEvent, List.head?, hl]
        exact hInv
      | some i =>
        simp only [handleEvent, List.head?, hl]
        exact wfMapInv_modify cl wm i _ hInv (fun w => rfl)
  case WORKFLOW_EXECUTION_CANCELED =>
    cases ws with
    | nil => exact hInv
    | cons top rest =>
      cases hl : lookupAssoc top wm with
      | none =>
        simp only [handleEvent, List.head?, hl]
        exact hInv
      | some i =>
        simp only [handleEvent, List.head?, hl]
        exact wfMapInv_modify cl wm i _ hInv (fun w => rfl)
  case WORKFLOW_EXECUTION_TERMINATED =>
    cases ws with
    | nil => exact hInv
    | cons top rest =>
      cases hl : lookupAssoc top wm with
      | none =>
        simp only [handleEvent, List.head?, hl]
        exact hInv
      | some i =>
        simp only [handleEvent, List.head?, hl]
        exact wfMapInv_modify cl wm i _ hInv (fun w => rfl)
  all_goals exact hInv

theorem wfMapInv_fold (es : List Event) (st : ParseState)
    (hInv : WfMapInv st.chronologicalList st.workflowMap)
    (hnd : noDupStart st es = true) :
    WfMapInv (List.foldl handleEvent st es).chronologicalList
      (List.foldl handleEvent st es).workflowMap := by
  induction es generalizing st with
  | nil => exact hInv
  | cons e rest ih =>
    rw [noDupStart, Bool.and_eq_true] at hnd
    obtain ⟨hg, hrest⟩ := hnd
    refine ih (handleEvent st e) (wfMapInv_step st e hInv ?_) hrest
    intro attrs hek ha
    rw [hek, ha] at hg
    simpa [Option.isNone_iff_eq_none] using hg

/-- Claim C2 (amended): at most one WorkflowSpan exists per distinct
workflow identifier, at every step of the parse, provided no
WorkflowExecutionStarted event (carrying attributes) targets a workflow id
already registered at that point.  Child-workflow events alone never
create a duplicate — they mutate the registered span in place.  (The
unconditional claim fails: WorkflowExecutionStarted appends without
checking the map, see the counterexample.) -/
theorem atMostOneWorkflowSpan (events : List Event)
    (hnd : noDupStart initState events = true) :
    ∀ w, countWf w (parseTemporalHistory events) ≤ 1 := by
  intro w
  have hinit : WfMapInv initState.chronologicalList initState.workflowMap := by
    refine ⟨?_, ?_, ?_⟩
    · intro w' i h
      simp [initState, lookupAssoc] at h
    · intro w' _
      rfl
    · intro w'
      simp [initState, countWf]
  exact (wfMapInv_fold events initState hinit hnd).2.2 w

/-!
### Claim C6: start time vs end time on well-formed histories
-/

/-- Event timestamps are nondecreasing, all at least `b`. -/
def timesFrom (b : Nat) : List Event → Bool
  | [] => true
  | e :: rest => decide (b ≤ e.eventTime) && timesFrom e.eventTime rest

/-- Event timestamps are nondecreasing along the sequence. -/
def nondecreasingTimes (events : List Event) : Bool := timesFrom 0 events

/-- Processing this event does not reassign the start time of an item
whose end time is already set. -/
def stepNoLate (st : ParseState) (e : Event) : Bool :=
  (List.range st.chronologicalList.length).all fun i =>
    match st.chronologicalList.get? i, (handleEvent st e).chronologicalList.get? i with
    | some a, some b => !(itemEnd a).isSome || (itemStart b == itemStart a)
    | _, _ => true

/-- `stepNoLate` holds at every step of the pass. -/
def noLateStart : ParseState → List Event → Bool
  | _, [] => true
  | st, e :: rest => stepNoLate st e && noLateStart (handleEvent st e) rest

/-- All start times are bounded by `b` and every item with both times set
satisfies start ≤ end. -/
def TimeInv (l : List ChronologicalItem) (b : Nat) : Prop :=
  ∀ item ∈ l,
    (∀ s, itemStart item = some s → s ≤ b) ∧
    (∀ s t, itemStart item = some s → itemEnd item = some t → s ≤ t)

theorem timeInv_step (st : ParseState) (e : Event) (b : Nat)
    (hb : b ≤ e.eventTime)
    (hInv : TimeInv st.chronologicalList b)
    (hnl : stepNoLate st e = true) :
    TimeInv (handleEvent st e).chronologicalList e.eventTime := by
  rcases handleEvent_shape st e with heq | ⟨x, heq, hxs, hxe⟩ | ⟨i, a, y, hg, heq, hkey, htime, _⟩
  · rw [heq]
    intro item hmem
    obtain ⟨h1, h2⟩ := hInv item hmem
    exact ⟨fun s hs => le_trans (h1 s hs) hb, h2⟩
  · rw [heq]
    intro item hmem
    rcases List.mem_append.mp hmem with hmem | hx
    · obtain ⟨h1, h2⟩ := hInv item hmem
      exact ⟨fun s hs => le_trans (h1 s hs) hb, h2⟩
    · have hx' : item = x := by simpa using hx
      subst hx'
      constructor
      · intro s hs
        rcases hxs with h | h
        · rw [h] at hs
          exact absurd hs (by simp)
        · rw [h] at hs
          injection hs with hs'
          omega
      · intro s t hs ht
        rw [hxe] at ht
        exact absurd ht (by simp)
  · rw [heq]
    intro item hmem
    rcases List.mem_or_eq_of_mem_set hmem with hmem | rfl
    · obtain ⟨h1, h2⟩ := hInv item hmem
      exact ⟨fun s hs => le_trans (h1 s hs) hb, h2⟩
    · obtain ⟨h1a, h2a⟩ := hInv a (List.get?_mem hg)
      have hi : i < st.chronologicalList.length := (List.get?_eq_some.mp hg).1
      rcases htime with ⟨hys, hye⟩ | ⟨hys, hye⟩
      · refine ⟨?_, ?_⟩
        · intro s hs
          rw [hys] at hs
          exact le_trans (h1a s hs) hb
        · intro s t hs ht
          rw [hys] at hs
          rw [hye] at ht
          injection ht with ht'
          rw [← ht']
          exact le_trans (h1a s hs) hb
      · refine ⟨?_, ?_⟩
        · intro s hs
          rw [hys] at hs
          injection hs with hs'
          omega
        · intro s t hs ht
          rw [hye] at ht
          have hcond := (List.all_eq_true.mp hnl) i (List.mem_range.mpr hi)
          have hgy : (handleEvent st e).chronologicalList.get? i = some item := by
            rw [heq, List.get?_set_eq_of_lt _ hi]
          simp only [hg, hgy, ht, Option.isSome_some, Bool.not_true, Bool.false_or,
            beq_iff_eq] at hcond
          rw [hcond] at hs
          exact h2a s t hs ht

theorem timeInv_fold (es : List Event) (st : ParseState) (b : Nat)
    (ht : timesFrom b es = true)
    (hnl : noLateStart st es = true)
    (hInv : TimeInv st.chronologicalList b) :
    ∃ b', TimeInv (List.foldl handleEvent st es).chronologicalList b' := by
  induction es generalizing st b with
  | nil => exact ⟨b, hInv⟩
  | cons e rest ih =>
    rw [timesFrom, Bool.and_eq_true, decide_eq_true_eq] at ht
    obtain ⟨hbe, htr⟩ := ht
    rw [noLateStart, Bool.and_eq_true] at hnl
    obtain ⟨hstep, hnlr⟩ := hnl
    exact ih (handleEvent st e) e.eventTime htr hnlr (timeInv_step st e b hbe hInv hstep)

/-- Claim C6 (amended): on an event sequence with nondecreasing timestamps
in which no event reassigns the start time of an item whose end time is
already set (noLateStart — violated only by Initiated/ChildStarted events
arriving for an already-terminated span, e.g. under child workflow id
reuse), every output item carrying both a start and an end time satisfies
start ≤ end. -/
theorem startLeEndOfWellFormed (events : List Event)
    (hmono : nondecreasingTimes events = true)
    (hnls : noLateStart initState events = true) :
    ∀ item ∈ parseTemporalHistory events, ∀ s t,
      itemStart item = some s → itemEnd item = some t → s ≤ t := by
  intro item hmem s t hs ht
  have hinit : TimeInv initState.chronologicalList 0 := by
    intro it hmemi
    exact absurd hmemi (by simp [initState])
  obtain ⟨b', hInv⟩ := timeInv_fold events initState 0 hmono hnls hinit
  exact (hInv item hmem).2 s t hs ht

/-!
### Claims C7, C8, C9: fetch layer and tree assembly
-/

/-- A successful page that carries a continuation token. -/
def isPagedOk : UpstreamResp → Bool
  | UpstreamResp.ok _ (some _) => true
  | _ => false

/-- Claim C8: the pagination loop returns exactly the concatenation of all
pages' event lists in page order, following tokens until one is absent. -/
theorem paginationConcatenates (ps : List (List Event × String)) (lastPage : List Event) :
    getWorkflowData (ps.map (fun pr => UpstreamResp.ok pr.1 (some pr.2)) ++
        [UpstreamResp.ok lastPage none]) =
    Except.ok ((ps.map Prod.fst).join ++ lastPage) := by
  induction ps with
  | nil => simp [getWorkflowData]
  | cons pr rest ih =>
    simp [getWorkflowData, ih, List.join]

theorem fetchHistory_fail (pre rest : List UpstreamResp) (s : Nat)
    (hpre : ∀ r ∈ pre, isPagedOk r = true) :
    fetchHistory (pre ++ UpstreamResp.fail s :: rest) =
      (if s = 404 then Except.error FetchError.NotFound
       else Except.error (FetchError.UpstreamError s)) := by
  induction pre with
  | nil => simp [fetchHistory]
  | cons r pre2 ih =>
    have hr := hpre r (List.mem_cons_self r pre2)
    cases r with
    | fail s2 => simp [isPagedOk] at hr
    | ok evs tok =>
      cases tok with
      | none => simp [isPagedOk] at hr
      | some t =>
        have hrec := ih fun r hmem => hpre r (List.mem_cons_of_mem _ hmem)
        by_cases h4 : s = 404
        · subst h4
          simp [fetchHistory, hrec]
        · simp [fetchHistory, hrec, h4]

/-- Claim C7: a pending fetch that hits an upstream "no such execution"
response fails with NotFound and any other non-success response with
UpstreamError carrying the upstream status — in both cases whatever pages
would come later are never consumed (no retry, the whole fetch aborts) —
and the `GET /workflow` handler surfaces those failures of the root fetch
as 404 resp. 500. -/
theorem notFoundAndUpstreamErrorSurfaced (pre rest : List UpstreamResp) (s : Nat)
    (hpre : ∀ r ∈ pre, isPagedOk r = true) (hs : s ≠ 404) :
    fetchHistory (pre ++ UpstreamResp.fail 404 :: rest) = Except.error FetchError.NotFound ∧
    fetchHistory (pre ++ UpstreamResp.fail s :: rest) = Except.error (FetchError.UpstreamError s) ∧
    (∀ (fetch : String → Except FetchError (List Event)) (rootWorkflowId : String),
      fetch rootWorkflowId = Except.error FetchError.NotFound →
      workflowRouteStatus (getRootWorkflowData fetch rootWorkflowId) = 404) ∧
    (∀ (fetch : String → Except FetchError (List Event)) (rootWorkflowId : String),
      fetch rootWorkflowId = Except.error (FetchError.UpstreamError s) →
      workflowRouteStatus (getRootWorkflowData fetch rootWorkflowId) = 500) := by
  refine ⟨?_, ?_, ?_, ?_⟩
  · rw [fetchHistory_fail pre rest 404 hpre]
    simp
  · rw [fetchHistory_fail pre rest s hpre]
    simp [hs]
  · intro fetch rootWorkflowId hf
    simp [getRootWorkflowData, hf, workflowRouteStatus]
  · intro fetch rootWorkflowId hf
    simp [getRootWorkflowData, hf, workflowRouteStatus]

/-- Does the parsed root timeline mention workflow id `c` as a child
workflow item (`item.type === 'childWorkflow'`)? -/
def isChildItemOf (c : String) : ChronologicalItem → Bool
  | ChronologicalItem.workflow w => w.itemType == "childWorkflow" && w.workflowId == c
  | _ => false

def hasChildItem (c : String) (l : List ChronologicalItem) : Bool := l.any (isChildItemOf c)

theorem collectChildren_lookup (fetch : String → Except ε (List Event))
    (items : List ChronologicalItem) (m : List (String × List ChronologicalItem)) (c : String) :
    lookupAssoc c (collectChildren fetch items m) =
      match fetch c with
      | Except.ok cevs =>
        if hasChildItem c items then some (parseTemporalHistory cevs) else lookupAssoc c m
      | Except.error _ => lookupAssoc c m := by
  cases hfc : fetch c with
  | ok cevs =>
    induction items generalizing m with
    | nil => simp [collectChildren, hasChildItem]
    | cons item rest ih =>
      cases item with
      | activity a =>
        rw [show collectChildren fetch (ChronologicalItem.activity a :: rest) m =
          collectChildren fetch rest m from rfl, ih]
        simp [hasChildItem, isChildItemOf]
      | workflow w =>
        by_cases hcw : w.itemType = "childWorkflow"
        · cases hf2 : fetch w.workflowId with
          | ok cevs2 =>
            rw [show collectChildren fetch (ChronologicalItem.workflow w :: rest) m =
              collectChildren fetch rest
                (insertAssoc w.workflowId (parseTemporalHistory cevs2) m) from by
                simp [collectChildren, hcw, hf2], ih]
            by_cases hwc : w.workflowId = c
            · have hce : cevs2 = cevs := by
                rw [hwc, hfc] at hf2
                injection hf2 with h5
                exact h5.symm
              subst hce
              rw [lookupAssoc_insertAssoc]
              simp [hasChildItem, isChildItemOf, hcw, hwc]
            · rw [lookupAssoc_insertAssoc, if_neg hwc]
              simp [hasChildItem, isChildItemOf, hwc]
          | error e2 =>
            rw [show collectChildren fetch (ChronologicalItem.workflow w :: rest) m =
              collectChildren fetch rest m from by simp [collectChildren, hcw, hf2], ih]
            by_cases hwc : w.workflowId = c
            · rw [hwc, hfc] at hf2
              simp at hf2
            · simp [hasChildItem, isChildItemOf, hwc]
        · rw [show collectChildren fetch (ChronologicalItem.workflow w :: rest) m =
            collectChildren fetch rest m from by simp [collectChildren, hcw], ih]
          simp [hasChildItem, isChildItemOf, hcw]
  | error e =>
    induction items generalizing m with
    | nil => simp [collectChildren]
    | cons item rest ih =>
      cases item with
      | activity a =>
        exact ih m
      | workflow w =>
        by_cases hcw : w.itemType = "childWorkflow"
        · cases hf2 : fetch w.workflowId with
          | ok cevs2 =>
            have hwc : w.workflowId ≠ c := by
              intro hwc
              rw [hwc, hfc] at hf2
              simp at hf2
            rw [show collectChildren fetch (ChronologicalItem.workflow w :: rest) m =
              collectChildren fetch rest
                (insertAssoc w.workflowId (parseTemporalHistory cevs2) m) from by
                simp [collectChildren, hcw, hf2], ih, lookupAssoc_insertAssoc, if_neg hwc]
          | error e2 =>
            rw [show collectChildren fetch (ChronologicalItem.workflow w :: rest) m =
              collectChildren fetch rest m from by simp [collectChildren, hcw, hf2], ih]
        · rw [show collectChildren fetch (ChronologicalItem.workflow w :: rest) m =
            collectChildren fetch rest m from by simp [collectChildren, hcw], ih]

/-- The entry the children mapping is expected to hold for workflow id
`c`: the parsed history of `c` when the root timeline mentions `c` as a
child item and its fetch succeeds, nothing otherwise. -/
def expectedChildEntry (fetch : String → Except ε (List Event))
    (root : List ChronologicalItem) (c : String) : Option (List ChronologicalItem) :=
  match fetch c with
  | Except.ok cevs => if hasChildItem c root then some (parseTemporalHistory cevs) else none
  | Except.error _ => none

/-- Claim C9: when the root fetch succeeds, tree assembly always succeeds
(no child error propagates): the result carries the full parsed root
timeline, and the children mapping has an entry exactly for each workflow
id mentioned as a child item whose own fetch succeeded — a failing child is
simply absent. -/
theorem childFailureIsolated {ε : Type} (fetch : String → Except ε (List Event))
    (rootWorkflowId : String) (evs : List Event)
    (h : fetch rootWorkflowId = Except.ok evs) :
    ∃ childMap, getRootWorkflowData fetch rootWorkflowId =
        Except.ok ⟨parseTemporalHistory evs, childMap⟩ ∧
      ∀ c, lookupAssoc c childMap = expectedChildEntry fetch (parseTemporalHistory evs) c := by
  refine ⟨collectChildren fetch (parseTemporalHistory evs) [], ?_, ?_⟩
  · simp [getRootWorkflowData, h]
  · intro c
    rw [collectChildren_lookup]
    cases hfc : fetch c <;> simp [expectedChildEntry, hfc, lookupAssoc]

/-!
### Concrete counterexamples and witnesses
-/

def itemStatus : ChronologicalItem → String
  | ChronologicalItem.workflow w => w.status
  | ChronologicalItem.activity a => a.status

/-- Claim C2 counterexample: two WorkflowExecutionStarted events for the
same workflow id produce two WorkflowSpans for that id — the second event
concerns an already-registered identifier yet appends a second span. -/
theorem dupStartCounterexample :
    countWf "A" (parseTemporalHistory
      [wesEvent 1 1 "A" "r1" "T", wesEvent 2 2 "A" "r2" "T"]) = 2 := by
  decide

def c3events : List Event :=
  [childStartedEvent 1 1 "B" "r1" (some ("A", "r0")) "T",
   wfTerminalEvent 2 2 EventType.WORKFLOW_EXECUTION_FAILED,
   childCompletedEvent 3 3 "B" "r1"]

/-- Claim C3 counterexample: after the first two events the only span is
FAILED (terminal) with end time 2; the ChildWorkflowExecutionCompleted
event then overwrites the already-terminal status to COMPLETED and the
already-set end time to 3. -/
theorem terminalOverwriteCounterexample :
    (parseTemporalHistory (c3events.take 2)).map (fun item => (itemStatus item, itemEnd item)) =
      [("FAILED", some 2)] ∧
    (parseTemporalHistory c3events).map (fun item => (itemStatus item, itemEnd item)) =
      [("COMPLETED", some 3)] ∧
    isTerminalWorkflowStatus "FAILED" = true := by
  decide

/-- Claim C4 counterexample: a terminal workflow event processed with an
empty scope stack removes zero entries (the stack stays empty), not
"exactly one". -/
theorem emptyStackPopCounterexample :
    initState.workflowStack = [] ∧
    (handleEvent initState (wfTerminalEvent 1 1 EventType.WORKFLOW_EXECUTION_COMPLETED)).workflowStack = [] := by
  decide

def c6events : List Event :=
  [initiatedEvent 1 1 "B" "T" 0,
   childStartedEvent 2 2 "B" "r1" (some ("A", "r0")) "T",
   childCompletedEvent 3 3 "B" "r1",
   initiatedEvent 4 4 "B" "T" 0]

/-- Claim C6 counterexample: a causally valid log (child workflow id
"B" reused for a second child after the first completed) with strictly
increasing timestamps yields a span with start time 4 and end time 3 —
start > end. -/
theorem startAfterEndCounterexample :
    nondecreasingTimes c6events = true ∧
    (parseTemporalHistory c6events).map (fun item => (itemStart item, itemEnd item)) =
      [(some 4, some 3)] ∧
    ¬ (4 ≤ 3) := by
  decide

def c1st : ParseState := runParse [wesEvent 1 1 "A" "r" "T", actScheduledEvent 2 2 "a1" "AT" 1]

def c1e : Event := actStartedEvent 3 3 2

theorem activityEventResolutionWitness :
    isActivityResolutionEvent c1e = true ∧
    ((handleEvent c1st c1e).workflowStack = c1st.workflowStack ∧
     (handleEvent c1st c1e).workflowMap = c1st.workflowMap ∧
     (((∀ x ∈ c1st.chronologicalList, resolvesTo c1st.workflowStack.head? c1e.eventType x = false) ∧
        (handleEvent c1st c1e).chronologicalList = c1st.chronologicalList) ∨
      (∃ i a, c1st.chronologicalList.get? i = some a ∧
         resolvesTo c1st.workflowStack.head? c1e.eventType a = true ∧
         (∀ j b, i < j → c1st.chronologicalList.get? j = some b →
           resolvesTo c1st.workflowStack.head? c1e.eventType b = false) ∧
         (handleEvent c1st c1e).chronologicalList =
           c1st.chronologicalList.set i (resolutionUpdate c1e a)))) :=
  ⟨by decide, activityEventResolution c1st c1e (by decide)⟩

def c2events : List Event :=
  [wesEvent 1 1 "A" "r" "T", wfTerminalEvent 2 2 EventType.WORKFLOW_EXECUTION_COMPLETED]

theorem atMostOneWorkflowSpanWitness :
    noDupStart initState c2events = true ∧
    countWf "A" (parseTemporalHistory c2events) ≤ 1 :=
  ⟨by decide, atMostOneWorkflowSpan c2events (by decide) "A"⟩

def c3st : ParseState := runParse [childStartedEvent 1 1 "B" "r1" (some ("A", "r0")) "T"]

def c3wf : Workflow :=
  { itemType := "childWorkflow", workflowId := "B", runId := some "r1",
    workflowType := some "T", startTime := some 1, endTime := none, status := "RUNNING",
    relatedEventIds := [1], payload := none, parentWorkflowId := some "A",
    parentRunId := some "r0", workflowTaskCompletedEventId := none }

theorem workflowStatusOnlyBecomesTerminalWitness :
    c3st.chronologicalList.get? 0 = some (ChronologicalItem.workflow c3wf) ∧
    (∃ wf', (handleEvent c3st (wfTerminalEvent 2 2 EventType.WORKFLOW_EXECUTION_FAILED)).chronologicalList.get? 0 =
        some (ChronologicalItem.workflow wf') ∧
      wf'.workflowId = c3wf.workflowId ∧
      (wf'.status = c3wf.status ∨
        (isTerminalWorkflowStatus wf'.status = true ∧ wf'.endTime = some 2))) :=
  ⟨by decide,
   workflowStatusOnlyBecomesTerminal c3st (wfTerminalEvent 2 2 EventType.WORKFLOW_EXECUTION_FAILED)
     0 c3wf (by decide)⟩

def c4st : ParseState := runParse [wesEvent 1 1 "A" "r" "T"]

def c4e : Event := wfTerminalEvent 2 2 EventType.WORKFLOW_EXECUTION_COMPLETED

theorem terminalEventPopsOneWitness :
    isWorkflowTerminalEvent c4e.eventType = true ∧
    (handleEvent c4st c4e).workflowStack = c4st.workflowStack.tail ∧
    (c4st.workflowStack ≠ [] → (handleEvent c4st c4e).workflowStack.length + 1 = c4st.workflowStack.length) :=
  ⟨by decide, (terminalEventPopsOne c4st c4e (by decide)).1,
   (terminalEventPopsOne c4st c4e (by decide)).2.2.1⟩

theorem outputInsertionOrderWitness :
    0 < (parseTemporalHistory [wesEvent 1 1 "A" "r" "T"]).length ∧
    ((parseTemporalHistory ([wesEvent 1 1 "A" "r" "T"] ++
        [wfTerminalEvent 2 2 EventType.WORKFLOW_EXECUTION_COMPLETED])).map itemKey).get? 0 =
    ((parseTemporalHistory [wesEvent 1 1 "A" "r" "T"]).map itemKey).get? 0 :=
  ⟨by decide,
   outputInsertionOrder.2 [wesEvent 1 1 "A" "r" "T"]
     [wfTerminalEvent 2 2 EventType.WORKFLOW_EXECUTION_COMPLETED] 0 (by decide)⟩

def scenarioA : List Event :=
  [wesEvent 1 1 "A" "r" "T",
   actScheduledEvent 2 2 "a1" "AT" 1,
   actStartedEvent 3 3 2,
   actCompletedEvent 4 4 (some ["out"]),
   wfTerminalEvent 5 5 EventType.WORKFLOW_EXECUTION_COMPLETED]

theorem startLeEndOfWellFormedWitness :
    nondecreasingTimes scenarioA = true ∧
    noLateStart initState scenarioA = true ∧
    (∀ item ∈ parseTemporalHistory scenarioA, ∀ s t,
      itemStart item = some s → itemEnd item = some t → s ≤ t) :=
  ⟨by decide, by decide, startLeEndOfWellFormed scenarioA (by decide) (by decide)⟩

theorem notFoundAndUpstreamErrorSurfacedWitness :
    (∀ r ∈ [UpstreamResp.ok [] (some "t1")], isPagedOk r = true) ∧
    (500 : Nat) ≠ 404 ∧
    fetchHistory ([UpstreamResp.ok [] (some "t1")] ++ UpstreamResp.fail 404 :: []) =
      Except.error FetchError.NotFound :=
  ⟨by decide, by decide,
   (notFoundAndUpstreamErrorSurfaced [UpstreamResp.ok [] (some "t1")] [] 500
     (by decide) (by decide)).1⟩

def c9rootEvents : List Event :=
  [wesEvent 1 1 "root" "r" "T", initiatedEvent 2 2 "c1" "T" 1, initiatedEvent 3 3 "c2" "T" 1]

/-- Scenario E oracle: root and child "c1" fetch fine, child "c2" fails. -/
def fetchEx : String → Except Nat (List Event) := fun wid =>
  if wid = "root" then Except.ok c9rootEvents
  else if wid = "c1" then Except.ok []
  else Except.error 500

def childCount : Except Nat TemporalWorkflowChronologicalItems → Option Nat
  | Except.ok d => some d.childWorkflows.length
  | Except.error _ => none

theorem childFailureIsolatedWitness :
    fetchEx "root" = Except.ok c9rootEvents ∧
    (∃ childMap, getRootWorkflowData fetchEx "root" =
        Except.ok ⟨parseTemporalHistory c9rootEvents, childMap⟩ ∧
      ∀ c, lookupAssoc c childMap = expectedChildEntry fetchEx (parseTemporalHistory c9rootEvents) c) ∧
    childCount (getRootWorkflowData fetchEx "root") = some 1 :=
  ⟨rfl, childFailureIsolated fetchEx "root" c9rootEvents rfl, by decide⟩

theorem initiatedPlaceholderParentIsSelfWitness :
    (initiatedEvent 1 1 "B" "T" 7).eventType = EventType.START_CHILD_WORKFLOW_EXECUTION_INITIATED ∧
    (initiatedEvent 1 1 "B" "T" 7).startChildWorkflowExecutionInitiatedEventAttributes =
      some ⟨"B", some ⟨"T"⟩, 7⟩ ∧
    lookupAssoc "B" initState.workflowMap = none ∧
    (∃ wf : Workflow, (handleEvent initState (initiatedEvent 1 1 "B" "T" 7)).chronologicalList =
        initState.chronologicalList ++ [ChronologicalItem.workflow wf] ∧
      wf.itemType = "childWorkflow" ∧ wf.workflowId = "B" ∧
      wf.parentWorkflowId = some "B" ∧ wf.parentRunId = none ∧ wf.runId = none) :=
  ⟨rfl, rfl, rfl,
   initiatedPlaceholderParentIsSelf initState (initiatedEvent 1 1 "B" "T" 7)
     ⟨"B", some ⟨"T"⟩, 7⟩ rfl rfl rfl⟩

end Temporal
